import Mathlib

set_option maxRecDepth 1000000

/-!
Shallow embedding of `src/scripts/transform.py` (class `SalarySurveyTransformer`)
from the salary-survey-etl repository, together with proofs of the frozen claims.

Modelling conventions:
* A pandas `DataFrame` is a `Table`: an ordered list of column names and a list of
  rows, each row an ordered list of cells; a cell is `Option String` (`none` is a
  missing value, i.e. `NaN`/`None`/`NaT` in pandas).
* String operations are modelled at ASCII level on `List Char` (the survey data
  processed by the pipeline is ASCII; Python's `str` methods and the regexes used
  by the source agree with these models on that fragment).
* A cleaning step that would raise an exception (for example a `KeyError` on a
  missing column) is modelled by the step returning the empty table, exactly the
  value the source's `except` clause returns (`pd.DataFrame()`).
* In-place mutation of the caller's `DataFrame` object is modelled by a small
  state `PState` that carries the caller's object's current value, the working
  value, and whether the two are still the same Python object (aliased).
  Operations that mutate a frame in place (`rename(inplace=True)`, column
  assignment `df[c] = ...`) apply to both when aliased; operations that produce a
  fresh frame (`drop_duplicates`, `drop(columns=...)`, `df.replace`, `df.map`,
  `pd.DataFrame()`) rebind the working value and break the alias.
-/

namespace SalarySurvey

/-! ### Character-level helpers (ASCII models of Python `str` / `re` behaviour) -/

/-- Python's `\s` class restricted to ASCII: space, tab, newline, carriage
return, vertical tab, form feed. -/
def isSp (c : Char) : Bool :=
  c = ' ' || c = '\t' || c = '\n' || c = '\r' || c = '\x0b' || c = '\x0c'

/-- ASCII decimal digit. -/
def isDigitCh (c : Char) : Bool := '0' ≤ c && c ≤ '9'

/-- ASCII letter. -/
def isAlphaCh (c : Char) : Bool := ('a' ≤ c && c ≤ 'z') || ('A' ≤ c && c ≤ 'Z')

/-- Python's `\w` class restricted to ASCII: letters, digits, underscore. -/
def isWordCh (c : Char) : Bool := isAlphaCh c || isDigitCh c || c = '_'

/-- First-match association lookup (used for per-character case mapping). -/
def mapPairs : List (Char × Char) → Char → Option Char
  | [], _ => none
  | (a, b) :: rest, c => if c = a then some b else mapPairs rest c

/-- The ASCII lowercase-to-uppercase pairs. -/
def azUpper : List (Char × Char) :=
  [('a', 'A'), ('b', 'B'), ('c', 'C'), ('d', 'D'), ('e', 'E'), ('f', 'F'),
   ('g', 'G'), ('h', 'H'), ('i', 'I'), ('j', 'J'), ('k', 'K'), ('l', 'L'),
   ('m', 'M'), ('n', 'N'), ('o', 'O'), ('p', 'P'), ('q', 'Q'), ('r', 'R'),
   ('s', 'S'), ('t', 'T'), ('u', 'U'), ('v', 'V'), ('w', 'W'), ('x', 'X'),
   ('y', 'Y'), ('z', 'Z')]

/-- The ASCII uppercase-to-lowercase pairs. -/
def azLower : List (Char × Char) := azUpper.map (fun p => (p.2, p.1))

/-- ASCII uppercase conversion of one character (model of `str.upper` per char). -/
def upChar (c : Char) : Char := (mapPairs azUpper c).getD c

/-- ASCII lowercase conversion of one character (model of `str.lower` per char). -/
def downChar (c : Char) : Char := (mapPairs azLower c).getD c

/-- Whitespace-only list of characters (the strings matched by `^\s*$`,
including the empty string). -/
def allSp (l : List Char) : Bool := l.all isSp

/-- Python `str.strip()`: drop ASCII whitespace from both ends. -/
def pyStripL (l : List Char) : List Char :=
  ((l.dropWhile isSp).reverse.dropWhile isSp).reverse

/-- `re.sub(r'\s+', ' ', ·)`: each maximal whitespace run becomes one space.
The flag records whether we are inside a whitespace run already replaced. -/
def collapseAux : Bool → List Char → List Char
  | _, [] => []
  | inRun, c :: rest =>
    if isSp c then
      if inRun then collapseAux true rest else ' ' :: collapseAux true rest
    else c :: collapseAux false rest

def collapseWsL (l : List Char) : List Char := collapseAux false l

/-- `pat` is a prefix of the second list. -/
def startsWithL : List Char → List Char → Bool
  | [], _ => true
  | _ :: _, [] => false
  | p :: ps, c :: cs => p = c && startsWithL ps cs

/-- `pat` occurs as a contiguous sublist (Python `in` on strings). -/
def hasSubL (pat : List Char) : List Char → Bool
  | [] => startsWithL pat []
  | c :: rest => startsWithL pat (c :: rest) || hasSubL pat rest

/-- `re.sub(r'\(.*?\)', '', ·)`: delete each lazily matched parenthesised span,
i.e. from a `'('` to the next `')'`; a `'('` with no later `')'` is kept.
The flag records that we are inside a span being deleted. -/
def stripParensAux : Bool → List Char → List Char
  | _, [] => []
  | true, c :: rest =>
    if c = ')' then stripParensAux false rest else stripParensAux true rest
  | false, c :: rest =>
    if c = '(' && rest.any (· = ')') then stripParensAux true rest
    else c :: stripParensAux false rest

def stripParensL (l : List Char) : List Char := stripParensAux false l

/-- Python `str.title()` on ASCII: a letter after a non-letter is uppercased,
a letter after a letter is lowercased.  The flag is "previous character was a
letter" (computed on the original character). -/
def pyTitleAux : Bool → List Char → List Char
  | _, [] => []
  | prevAlpha, c :: rest =>
    (if prevAlpha then downChar c else upChar c) :: pyTitleAux (isAlphaCh c) rest

def pyTitleL (l : List Char) : List Char := pyTitleAux false l

/-- `.str.encode('latin1', errors='ignore')`: keep only code points ≤ 255,
each becoming one byte equal to its code point. -/
def latin1Bytes (l : List Char) : List Nat :=
  (l.filter (fun c => c.toNat ≤ 255)).map Char.toNat

/-- `.str.decode('utf-8', errors='ignore')` on bytes ≤ 255: ASCII bytes decode
to themselves; a valid two-byte sequence decodes to its code point; any other
byte is dropped.  (Repair of three/four-byte UTF-8 sequences is outside the
modelled ASCII/Latin-1 fragment; no claim exercises it.) -/
def utf8DecodeIgnore : List Nat → List Char
  | [] => []
  | [b] => if b < 128 then [Char.ofNat b] else []
  | b :: b2 :: rest2 =>
    if b < 128 then Char.ofNat b :: utf8DecodeIgnore (b2 :: rest2)
    else if 194 ≤ b && b ≤ 223 && 128 ≤ b2 && b2 ≤ 191 then
      Char.ofNat ((b - 192) * 64 + (b2 - 128)) :: utf8DecodeIgnore rest2
    else utf8DecodeIgnore (b2 :: rest2)

/-! ### String-level wrappers -/

def pyLower (s : String) : String := ⟨s.data.map downChar⟩
def pyUpper (s : String) : String := ⟨s.data.map upChar⟩
def pyStrip (s : String) : String := ⟨pyStripL s.data⟩
def collapseWs (s : String) : String := ⟨collapseWsL s.data⟩
def pyTitle (s : String) : String := ⟨pyTitleL s.data⟩
def stripParens (s : String) : String := ⟨stripParensL s.data⟩
def wsOnly (s : String) : Bool := allSp s.data
def containsSub (pat s : String) : Bool := hasSubL pat.data s.data
def reencodeCity (s : String) : String := ⟨utf8DecodeIgnore (latin1Bytes s.data)⟩

/-- `re.sub(r'[^\w\s]', '', ·)` (job-title punctuation removal). -/
def keepWordSp (s : String) : String := ⟨s.data.filter (fun c => isWordCh c || isSp c)⟩

/-- `re.sub(r'[^0-9.]', '', ·)` (salary / additional-compensation cleaning). -/
def keepDigitsDot (s : String) : String :=
  ⟨s.data.filter (fun c => isDigitCh c || c = '.')⟩

/-- `re.sub(r'[^A-Z/]', ' ', ·)` (currency cleaning). -/
def nonAZSlashToSpace (s : String) : String :=
  ⟨s.data.map (fun c => if ('A' ≤ c && c ≤ 'Z') || c = '/' then c else ' ')⟩

/-- `re.sub(r'[^a-z\s]', '', ·)` (country cleaning). -/
def keepLowerSp (s : String) : String :=
  ⟨s.data.filter (fun c => ('a' ≤ c && c ≤ 'z') || isSp c)⟩

/-- `.str.split(',').str[0]`: the segment before the first comma. -/
def firstCommaSeg (s : String) : String := ⟨s.data.takeWhile (· ≠ ',')⟩

/-- `.str.slice(0, 100)`. -/
def slice100 (s : String) : String := ⟨s.data.take 100⟩

/-! ### Cells -/

/-- A table cell: `none` is a missing value (pandas `NaN`/`None`/`NaT`). -/
abbrev Cell := Option String

/-- `.astype(str)`: a present string renders as itself, a missing value (`NaN`,
as produced by CSV extraction) renders as `"nan"`. -/
def toStr (v : Cell) : String := v.getD "nan"

/-! ### The fixed lookup tables of `transform.py` -/

/-- `rename_map` of `_rename_columns` (lines 26–46): raw survey header to short
field name; headers outside the map keep their name. -/
def renameName (s : String) : String :=
  if s = "Timestamp" then "Timestamp"
  else if s = "How old are you?" then "Age"
  else if s = "What industry do you work in?" then "Industry"
  else if s = "Job title" then "Job_Title"
  else if s = "If your job title needs additional context, please clarify here:" then "Job_Context"
  else if s = "What is your annual salary? (You'll indicate the currency in a later question. If you are part-time or hourly, please enter an annualized equivalent -- what you would earn if you worked the job 40 hours a week, 52 weeks a year.)" then "Annual_Salary"
  else if s = "How much additional monetary compensation do you get, if any (for example, bonuses or overtime in an average year)? Please only include monetary compensation here, not the value of benefits." then "Additional_Comp"
  else if s = "Please indicate the currency" then "Currency"
  else if s = "If \"Other,\" please indicate the currency here: " then "Currency_Other"
  else if s = "If your income needs additional context, please provide it here:" then "Income_Context"
  else if s = "What country do you work in?" then "Country"
  else if s = "If you're in the U.S., what state do you work in?" then "State"
  else if s = "What city do you work in?" then "City"
  else if s = "How many years of professional work experience do you have overall?" then "Experience_Overall"
  else if s = "How many years of professional work experience do you have in your field?" then "Experience"
  else if s = "What is your highest level of education completed?" then "Education"
  else if s = "What is your gender?" then "Gender"
  else if s = "What is your race? (Choose all that apply.)" then "Race"
  else if s = "Seniority" then "Seniority"
  else s

/-- The 18 raw survey headers, in the order the raw export carries them
(the keys of `rename_map` other than the derived `Seniority`). -/
def stdRawHeaders : List String :=
  ["Timestamp",
   "How old are you?",
   "What industry do you work in?",
   "Job title",
   "If your job title needs additional context, please clarify here:",
   "What is your annual salary? (You'll indicate the currency in a later question. If you are part-time or hourly, please enter an annualized equivalent -- what you would earn if you worked the job 40 hours a week, 52 weeks a year.)",
   "How much additional monetary compensation do you get, if any (for example, bonuses or overtime in an average year)? Please only include monetary compensation here, not the value of benefits.",
   "Please indicate the currency",
   "If \"Other,\" please indicate the currency here: ",
   "If your income needs additional context, please provide it here:",
   "What country do you work in?",
   "If you're in the U.S., what state do you work in?",
   "What city do you work in?",
   "How many years of professional work experience do you have overall?",
   "How many years of professional work experience do you have in your field?",
   "What is your highest level of education completed?",
   "What is your gender?",
   "What is your race? (Choose all that apply.)"]

/-- The canonical output schema, exactly the column list of the final
projection in `transform` (lines 701–707). -/
def canonicalCols : List String :=
  ["Timestamp", "Age", "Gender", "Race", "Education",
   "Industry", "Job_Title", "Seniority", "Job_Context",
   "Experience_Overall", "Experience", "Annual_Salary",
   "Additional_Comp", "Currency", "Country", "State",
   "City", "Income_Context"]

/-- The seniority keyword alternatives of the regex on line 77, in order. -/
def seniorityKws : List String :=
  ["sr", "senior", "lead", "principal", "jr", "junior", "chief", "director",
   "manager", "assistant", "associate", "head", "coordinator",
   "i", "ii", "iii", "iv", "v"]

/-- The seniority keyword-to-label map of lines 81–100; tokens outside the map
give `none` (pandas `Series.map` yields `NaN` for missing keys). -/
def senLabel (s : String) : Option String :=
  if s = "sr" then some "Senior"
  else if s = "senior" then some "Senior"
  else if s = "lead" then some "Lead"
  else if s = "principal" then some "Principal"
  else if s = "chief" then some "Executive"
  else if s = "director" then some "Executive"
  else if s = "manager" then some "Manager"
  else if s = "assistant" then some "Assistant"
  else if s = "associate" then some "Associate"
  else if s = "head" then some "Executive"
  else if s = "coordinator" then some "Coordinator"
  else if s = "jr" then some "Junior"
  else if s = "junior" then some "Junior"
  else if s = "i" then some "Level I"
  else if s = "ii" then some "Level II"
  else if s = "iii" then some "Level III"
  else if s = "iv" then some "Level IV"
  else if s = "v" then some "Level V"
  else none

/-- `replace_map` of `_standardize_currency_other_cols` (lines 187–231);
`Series.replace` leaves unmapped values unchanged, and maps `"0"` to `None`. -/
def currencyRep (s : String) : Option String :=
  if s = "US DOLLAR" then some "USD"
  else if s = "AMERICAN DOLLARS" then some "USD"
  else if s = "USD" then some "USD"
  else if s = "BR" then some "BRL"
  else if s = "BRL" then some "BRL"
  else if s = "BRL R" then some "BRL"
  else if s = "INDIAN RUPEES" then some "INR"
  else if s = "RUPEES" then some "INR"
  else if s = "INR INDIAN RUPEE" then some "INR"
  else if s = "RMB" then some "CNY"
  else if s = "CHINA RMB" then some "CNY"
  else if s = "RMB CHINESE YUAN" then some "CNY"
  else if s = "EURO" then some "EUR"
  else if s = "DANISH KRONER" then some "DKK"
  else if s = "NORWEGIAN KRONER" then some "NOK"
  else if s = "POLISH ZLOTY" then some "PLN"
  else if s = "POLISH ZWOTY" then some "PLN"
  else if s = "PLN ZWOTY" then some "PLN"
  else if s = "KOREAN WON" then some "KRW"
  else if s = "KRW KOREAN WON" then some "KRW"
  else if s = "NEW ISRAELI SHEKEL" then some "ILS"
  else if s = "NIS" then some "ILS"
  else if s = "NIS NEW ISRAELI SHEKEL" then some "ILS"
  else if s = "ILS SHEKEL" then some "ILS"
  else if s = "ISRAELI SHEKELS" then some "ILS"
  else if s = "ARGENTINIAN PESO" then some "ARS"
  else if s = "ARGENTINE PESO" then some "ARS"
  else if s = "PESO ARGENTINO" then some "ARS"
  else if s = "MEXICAN PESOS" then some "MXN"
  else if s = "PESOS COLOMBIANOS" then some "COP"
  else if s = "PHILIPPINE PESO" then some "PHP"
  else if s = "PHILIPPINE PESOS" then some "PHP"
  else if s = "PHP PHILIPPINE PESO" then some "PHP"
  else if s = "AUD AUSTRALIAN" then some "AUD"
  else if s = "AUSTRALIAN DOLLARS" then some "AUD"
  else if s = "AUD NZD" then some "AUD/NZD"
  else if s = "SINGAPORE DOLLARA" then some "SGD"
  else if s = "THAI BAHT" then some "THB"
  else if s = "THAI  BAHT" then some "THB"
  else if s = "MYR" then some "MYR"
  else if s = "RM" then some "MYR"
  else if s = "EQUITY" then some "EQUITY"
  else if s = "0" then none
  else some s

/-- `country_map` of `_standardize_country` (lines 309–347); `Series.map`
yields `NaN` (here `none`) for any value outside the table. -/
def countryLookup (s : String) : Option String :=
  if s = "us" then some "United States"
  else if s = "usa" then some "United States"
  else if s = "u s" then some "United States"
  else if s = "u s a" then some "United States"
  else if s = "united states" then some "United States"
  else if s = "united state" then some "United States"
  else if s = "america" then some "United States"
  else if s = "the united states" then some "United States"
  else if s = "uk" then some "United Kingdom"
  else if s = "u k" then some "United Kingdom"
  else if s = "united kingdom" then some "United Kingdom"
  else if s = "england" then some "United Kingdom"
  else if s = "great britain" then some "United Kingdom"
  else if s = "britain" then some "United Kingdom"
  else if s = "scotland" then some "United Kingdom"
  else if s = "wales" then some "United Kingdom"
  else if s = "canada" then some "Canada"
  else if s = "australia" then some "Australia"
  else if s = "new zealand" then some "New Zealand"
  else if s = "mexico" then some "Mexico"
  else if s = "france" then some "France"
  else if s = "germany" then some "Germany"
  else if s = "netherlands" then some "Netherlands"
  else if s = "india" then some "India"
  else if s = "japan" then some "Japan"
  else if s = "global" then some "Global"
  else if s = "worldwide" then some "Global"
  else if s = "california" then some "United States"
  else if s = "europe" then some "Europe"
  else if s = "africa" then some "Africa"
  else none

/-- Gender replacement dictionary of lines 390–397 (unmapped values pass
through). -/
def genderRep (s : String) : String :=
  if s = "Man" then "Male"
  else if s = "Woman" then "Female"
  else if s = "Non-binary" then "Non-Binary"
  else if s = "Other or prefer not to answer" then "Prefer not to say"
  else if s = "Prefer not to answer" then "Prefer not to say"
  else if s = "0" then "Prefer not to say"
  else s

/-- Race replacement dictionary of lines 423–426. -/
def raceRep (s : String) : String :=
  if s = "Another option not listed here or prefer not to answer" then "Other"
  else if s = "0" then "Other"
  else s

/-- Education replacement dictionary of lines 452–457. -/
def eduRep (s : String) : String :=
  if s = "Master's degree" then "Master's Degree"
  else if s = "College degree" then "College Degree"
  else if s = "Some college" then "Some College"
  else if s = "Professional degree (MD, JD, etc.)" then "Professional Degree"
  else s

/-- Experience replacement dictionary of `_standardize_experience`
(lines 484–493). -/
def expRep (s : String) : String :=
  if s = "1 year or less" then "0-1 years"
  else if s = "2 - 4 years" then "2-4 years"
  else if s = "5-7 years" then "5-7 years"
  else if s = "8 - 10 years" then "8-10 years"
  else if s = "11 - 20 years" then "11-20 years"
  else if s = "21 - 30 years" then "21-30 years"
  else if s = "30 - 40 years" then "30-40 years"
  else if s = "41 years or more" then "41+ years"
  else s

/-- Experience replacement dictionary of `_standardize_overall_experience`
(lines 520–529); note the `"31 - 40 years"` key differing from
`_standardize_experience`. -/
def expORep (s : String) : String :=
  if s = "1 year or less" then "0-1 years"
  else if s = "2 - 4 years" then "2-4 years"
  else if s = "5-7 years" then "5-7 years"
  else if s = "8 - 10 years" then "8-10 years"
  else if s = "11 - 20 years" then "11-20 years"
  else if s = "21 - 30 years" then "21-30 years"
  else if s = "31 - 40 years" then "30-40 years"
  else if s = "41 years or more" then "41+ years"
  else s

/-- `invalid_entries` of `_standardize_city` (lines 588–593). -/
def cityInvalid : List String :=
  ["n/a", "na", "none", "no answer", "prefer not to answer", "undisclosed",
   "test", "remote", "work remotely", "telecommute", "virtual worker",
   "home worker", "student", "small city", "stay", "unknown", "remove",
   "dhgbfv", "pubw", "ff", "s"]

/-! ### Cell-level models of the per-column operations -/

/-- Word tokens of a character list: the maximal runs of `\w` characters.
Because every alternative of the seniority regex consists of word characters
only and is wrapped in `\b...\b`, a match of that regex is exactly a whole
word token equal to one of the alternatives. -/
def tokensAux : List Char → List Char → List (List Char)
  | [], acc => if acc.isEmpty then [] else [acc.reverse]
  | c :: rest, acc =>
    if isWordCh c then tokensAux rest (c :: acc)
    else if acc.isEmpty then tokensAux rest [] else acc.reverse :: tokensAux rest []

def wordTokens (s : String) : List String :=
  (tokensAux s.data []).map (fun l => (⟨l⟩ : String))

/-- `.str.findall(pattern).str[0]` for the seniority pattern of line 77:
the first word token that equals one of the keyword alternatives. -/
def firstKw (s : String) : Option String :=
  (wordTokens s).find? (fun t => seniorityKws.contains t)

/-- Job-title cleaning of lines 68–74: lowercase, delete `[^\w\s]`, collapse
whitespace, strip. -/
def jtCleanCell (v : Cell) : Cell :=
  v.map (fun s => pyStrip (collapseWs (keepWordSp (pyLower s))))

/-- Seniority derivation of lines 80–104, composed: first matched keyword,
lowercased and mapped through the label table, `NaN`-normalised and sliced to
100 characters. -/
def senCell (jobTitle : Cell) : Cell :=
  ((jobTitle.bind firstKw).bind (fun t => senLabel (pyLower t))).map slice100

/-- Annual-salary cleaning of lines 123–127. -/
def salaryCell (v : Cell) : Cell :=
  v.map (fun s => collapseWs (keepDigitsDot s))

/-- Additional-compensation cleaning of lines 145–151: `astype(str)`, keep
digits and dot, collapse whitespace, and turn the empty result into `NaN`. -/
def addlCompCell (v : Cell) : Cell :=
  let s := collapseWs (keepDigitsDot (toStr v))
  if s = "" then none else some s

/-- The currency merge of lines 171–174: when the (lowercased) currency
contains `"other"` the value of the other-currency column is taken;
a missing currency stays missing (`na=False` makes `contains` return false). -/
def curMergeCell (cur other : Cell) : Cell :=
  match cur with
  | none => none
  | some s => if containsSub "other" (pyLower s) then other else some s

/-- Currency cleaning of lines 177–184: uppercase, delete parentheticals,
map `[^A-Z/]` to space, collapse whitespace, strip. -/
def curCleanCell (v : Cell) : Cell :=
  v.map (fun s => pyStrip (collapseWs (nonAZSlashToSpace (stripParens (pyUpper s)))))

/-- The dictionary replacement of line 232. -/
def curMapCell (v : Cell) : Cell := v.bind currencyRep

/-- `pd.to_datetime(·, errors='coerce', utc=True).dt.strftime(...)`
(lines 256–257).  Modelled for the fragment the pipeline's contracts exercise:
a missing value stays missing, an already-normalised
`YYYY-MM-DD HH:MM:SS` string is returned unchanged, and anything else is
coerced to `NaT` (other parseable datetime formats are outside the modelled
fragment; no claim depends on them). -/
def tsFormat (s : String) : Option String :=
  match s.data with
  | [y1, y2, y3, y4, '-', m1, m2, '-', d1, d2, ' ', h1, h2, ':', n1, n2, ':', s1, s2] =>
    if [y1, y2, y3, y4, m1, m2, d1, d2, h1, h2, n1, n2, s1, s2].all isDigitCh
    then some s else none
  | _ => none

def tsCell (v : Cell) : Cell := v.bind tsFormat

/-- Income-context cleaning of lines 276–283: `fillna('')`, lowercase, strip,
collapse whitespace, and turn the empty result into `NaN`. -/
def incomeCell (v : Cell) : Cell :=
  let s := collapseWs (pyStrip (pyLower (v.getD "")))
  if s = "" then none else some s

/-- Country standardisation (lines 301–306 and 349): lowercase, keep
`[a-z\s]`, collapse whitespace (no strip), then lowercase again and map
through the country table, unmatched values becoming `None`. -/
def countryCell (v : Cell) : Cell :=
  (v.map (fun s => collapseWs (keepLowerSp (pyLower s)))).bind
    (fun s => countryLookup (pyLower s))

/-- Job-context standardisation (line 367): `where(notna, None)`, the
identity on this model of cells. -/
def jobCtxCell (v : Cell) : Cell := v

/-- Gender standardisation (lines 387–400): blank to missing, dictionary
replacement, fill missing with `'Prefer not to say'`. -/
def genderCell (v : Cell) : Cell :=
  match v with
  | none => some "Prefer not to say"
  | some s => if wsOnly s then some "Prefer not to say" else some (genderRep s)

/-- Race standardisation (lines 420–429): blank to missing, dictionary
replacement followed by `.str.title()`, fill missing with `'Other'`. -/
def raceCell (v : Cell) : Cell :=
  match v with
  | none => some "Other"
  | some s => if wsOnly s then some "Other" else some (pyTitle (raceRep s))

/-- Education standardisation (lines 449–460). -/
def eduCell (v : Cell) : Cell :=
  match v with
  | none => some "Prefer not to say"
  | some s => if wsOnly s then some "Prefer not to say" else some (eduRep s)

/-- Field-experience standardisation (lines 480–496): blank to missing,
strip, dictionary replacement, fill missing with `'0-1 years'`. -/
def expCell (v : Cell) : Cell :=
  match v with
  | none => some "0-1 years"
  | some s => if wsOnly s then some "0-1 years" else some (expRep (pyStrip s))

/-- Overall-experience standardisation (lines 516–532). -/
def expOCell (v : Cell) : Cell :=
  match v with
  | none => some "0-1 years"
  | some s => if wsOnly s then some "0-1 years" else some (expORep (pyStrip s))

/-- State standardisation (lines 550–557): `astype(str)`, first comma
segment, strip, and the placeholder strings become `None`. -/
def stateCell (v : Cell) : Cell :=
  let s := pyStrip (firstCommaSeg (toStr v))
  if s = "0" || s = "nan" || s = "NaN" || s = "None" || s = "" || s = "null"
  then none else some s

/-- City standardisation (lines 577–603): `astype(str)`, encoding repair,
strip, collapse whitespace, placeholder strings to `None`, denylist filter,
then title-case and strip. -/
def cityCell (v : Cell) : Cell :=
  let a := collapseWs (pyStrip (reencodeCity (toStr v)))
  let b := if a = "" || a = "nan" || a = "None" || a = "NaN" then none else some a
  let c := b.bind (fun x => if cityInvalid.contains (pyStrip (pyLower x)) then none else some x)
  c.map (fun x => pyStrip (pyTitle x))

/-- The final cleanup of lines 695–696: whitespace-only strings become
`None`, and remaining missing markers are normalised to `None` (the identity
on this model of cells). -/
def cleanupCell (v : Cell) : Cell :=
  match v with
  | none => none
  | some s => if wsOnly s then none else some s

/-! ### Tables -/

/-- A pandas `DataFrame`: ordered column names and rows of cells.  Rows of a
real `DataFrame` always have exactly one cell per column (`Table.WF`). -/
structure Table where
  cols : List String
  rows : List (List Cell)
deriving DecidableEq, Repr

/-- Rectangularity: every row has one cell per column.  This is intrinsic to a
pandas `DataFrame`; the `Table` type is broader, so some theorems assume it. -/
def Table.WF (t : Table) : Prop := ∀ r ∈ t.rows, r.length = t.cols.length

instance (t : Table) : Decidable t.WF := by unfold Table.WF; infer_instance

/-- `df.empty`: a frame with no rows or no columns. -/
def Table.isEmpty (t : Table) : Bool := t.rows.isEmpty || t.cols.isEmpty

/-- `pd.DataFrame()`: the value every failing step returns. -/
def emptyTable : Table := ⟨[], []⟩

/-- Index of the column carrying `name` (pandas label lookup; the source is
only ever run on frames with distinct labels, where this is exact). -/
def idxOf : String → List String → Option Nat
  | _, [] => none
  | name, c :: rest => if c = name then some 0 else (idxOf name rest).map (· + 1)

/-- The cell of `row` in the column labelled `name` (given the column list). -/
def getVal (cols : List String) (row : List Cell) (name : String) : Cell :=
  match idxOf name cols with
  | some i => row.getD i none
  | none => none

/-- `df[name] = f(row)`: columnwise assignment.  If the label exists the cells
in that column are overwritten, otherwise a new column is appended (pandas
column creation). -/
def setCol (t : Table) (name : String) (f : List Cell → Cell) : Table :=
  match idxOf name t.cols with
  | some i => ⟨t.cols, t.rows.map (fun r => r.set i (f r))⟩
  | none => ⟨t.cols ++ [name], t.rows.map (fun r => r ++ [f r])⟩

/-- `df.drop(columns=[name])`.  The pipeline only calls this under a guard
that ensures the label exists (a missing label would raise, failing the
step before this point is reached). -/
def dropCol (t : Table) (name : String) : Table :=
  match idxOf name t.cols with
  | some i => ⟨t.cols.eraseIdx i, t.rows.map (fun r => r.eraseIdx i)⟩
  | none => t

/-- `df.drop_duplicates()`: keep the first occurrence of each distinct row. -/
def dropDupsAux : List (List Cell) → List (List Cell) → List (List Cell)
  | [], _ => []
  | r :: rest, seen =>
    if r ∈ seen then dropDupsAux rest seen else r :: dropDupsAux rest (r :: seen)

def dropDups (l : List (List Cell)) : List (List Cell) := dropDupsAux l []

/-- A row every field of which is missing (`df.isnull().all(axis=1)`). -/
def allNull (r : List Cell) : Bool := r.all (· = none)

/-! ### The mutation-tracking pipeline state -/

/-- `caller` is the current value of the `DataFrame` object the caller passed
in; `work` is the value bound to the local variable `df`; `aliased` records
whether the two are still the same Python object. -/
structure PState where
  caller : Table
  work : Table
  aliased : Bool
deriving DecidableEq, Repr

/-- An in-place mutation (`rename(inplace=True)`, `df[c] = ...`): it changes
the caller's object too while the local still aliases it. -/
def mutate (f : Table → Table) (s : PState) : PState :=
  ⟨if s.aliased then f s.caller else s.caller, f s.work, s.aliased⟩

/-- Rebinding `df` to a fresh frame (`drop_duplicates`, `drop`, `replace`,
`pd.DataFrame()`...): the caller's object is no longer aliased. -/
def rebind (t : Table) (s : PState) : PState := ⟨s.caller, t, false⟩

/-- Guard of a cleaning step: the column labels its body reads before its
first assignment completes.  When one is missing the access raises
(`KeyError`), the `except` clause runs, and the step returns a fresh
`pd.DataFrame()`. -/
def colGuard (name : String) (t : Table) : Bool := name ∈ t.cols

/-- A cleaning step, value level: guard, then the step's column assignments. -/
def stepT (guard : Table → Bool) (core : Table → Table) (t : Table) : Table :=
  if guard t then core t else emptyTable

/-- The same cleaning step at state level: the column assignments of `core`
mutate the frame in place (so the caller's object too while aliased); a
failing guard rebinds to a fresh empty frame. -/
def stepS (guard : Table → Bool) (core : Table → Table) (s : PState) : PState :=
  if guard s.work then mutate core s else rebind emptyTable s

/-! ### The sixteen transformation steps (lines 669–686): guards and cores -/

/-- `_rename_columns` (lines 14–51): `df.rename(columns=rename_map,
inplace=True)`; it cannot raise. -/
def renameCore (t : Table) : Table := ⟨t.cols.map renameName, t.rows⟩

/-- `_normalize_job_titles` (lines 53–109): clean `Job_Title`, then derive
`Seniority` from the cleaned title. -/
def jobTitlesCore (t : Table) : Table :=
  let t1 := setCol t "Job_Title" (fun r => jtCleanCell (getVal t.cols r "Job_Title"))
  setCol t1 "Seniority" (fun r => senCell (getVal t1.cols r "Job_Title"))

/-- `_standardize_annual_salaries` (lines 111–131). -/
def salaryCore (t : Table) : Table :=
  setCol t "Annual_Salary" (fun r => salaryCell (getVal t.cols r "Annual_Salary"))

/-- `_standardize_additional_comp` (lines 133–155). -/
def addlCompCore (t : Table) : Table :=
  setCol t "Additional_Comp" (fun r => addlCompCell (getVal t.cols r "Additional_Comp"))

/-- The three in-place `Currency` assignments of
`_standardize_currency_other_cols` (lines 171–232), composed: merge from
`Currency_Other`, clean, and map through `replace_map`. -/
def currencyCore (t : Table) : Table :=
  setCol t "Currency" (fun r =>
    curMapCell (curCleanCell (curMergeCell (getVal t.cols r "Currency")
      (getVal t.cols r "Currency_Other"))))

def currencyGuard (t : Table) : Bool := colGuard "Currency" t && colGuard "Currency_Other" t

/-- `_change_time_format` (lines 242–262). -/
def timeCore (t : Table) : Table :=
  setCol t "Timestamp" (fun r => tsCell (getVal t.cols r "Timestamp"))

/-- `_standardize_income_context` (lines 264–287). -/
def incomeCore (t : Table) : Table :=
  setCol t "Income_Context" (fun r => incomeCell (getVal t.cols r "Income_Context"))

/-- `_standardize_country` (lines 289–353). -/
def countryCore (t : Table) : Table :=
  setCol t "Country" (fun r => countryCell (getVal t.cols r "Country"))

/-- `_standardize_job_context` (lines 355–371). -/
def jobCtxCore (t : Table) : Table :=
  setCol t "Job_Context" (fun r => jobCtxCell (getVal t.cols r "Job_Context"))

/-- `_standardize_gender` (lines 373–404). -/
def genderCore (t : Table) : Table :=
  setCol t "Gender" (fun r => genderCell (getVal t.cols r "Gender"))

/-- `_standardize_race` (lines 406–433). -/
def raceCore (t : Table) : Table :=
  setCol t "Race" (fun r => raceCell (getVal t.cols r "Race"))

/-- `_standardize_education` (lines 435–464). -/
def eduCore (t : Table) : Table :=
  setCol t "Education" (fun r => eduCell (getVal t.cols r "Education"))

/-- `_standardize_experience` (lines 466–500). -/
def expCore (t : Table) : Table :=
  setCol t "Experience" (fun r => expCell (getVal t.cols r "Experience"))

/-- `_standardize_overall_experience` (lines 502–536). -/
def expOCore (t : Table) : Table :=
  setCol t "Experience_Overall" (fun r => expOCell (getVal t.cols r "Experience_Overall"))

/-- `_standardize_state` (lines 538–561). -/
def stateCore (t : Table) : Table :=
  setCol t "State" (fun r => stateCell (getVal t.cols r "State"))

/-- `_standardize_city` (lines 563–608). -/
def cityCore (t : Table) : Table :=
  setCol t "City" (fun r => cityCell (getVal t.cols r "City"))

/-! ### Value-level steps -/

def renameT : Table → Table := stepT (fun _ => true) renameCore
def jobTitlesT : Table → Table := stepT (colGuard "Job_Title") jobTitlesCore
def salaryT : Table → Table := stepT (colGuard "Annual_Salary") salaryCore
def addlCompT : Table → Table := stepT (colGuard "Additional_Comp") addlCompCore

/-- `_standardize_currency_other_cols` (lines 157–240): the in-place
assignments of `currencyCore` followed by rebinding `df` to the fresh frame
`df.drop(columns=['Currency_Other'])`. -/
def currencyT (t : Table) : Table :=
  if currencyGuard t then dropCol (currencyCore t) "Currency_Other" else emptyTable

def timeT : Table → Table := stepT (colGuard "Timestamp") timeCore
def incomeT : Table → Table := stepT (colGuard "Income_Context") incomeCore
def countryT : Table → Table := stepT (colGuard "Country") countryCore
def jobCtxT : Table → Table := stepT (colGuard "Job_Context") jobCtxCore
def genderT : Table → Table := stepT (colGuard "Gender") genderCore
def raceT : Table → Table := stepT (colGuard "Race") raceCore
def eduT : Table → Table := stepT (colGuard "Education") eduCore
def expT : Table → Table := stepT (colGuard "Experience") expCore
def expOT : Table → Table := stepT (colGuard "Experience_Overall") expOCore
def stateT : Table → Table := stepT (colGuard "State") stateCore
def cityT : Table → Table := stepT (colGuard "City") cityCore

/-- `transformation_steps` (lines 669–686), in order, value level. -/
def pipelineT : List (Table → Table) :=
  [renameT, jobTitlesT, salaryT, addlCompT, currencyT, timeT, incomeT,
   countryT, jobCtxT, genderT, raceT, eduT, expT, expOT, stateT, cityT]

/-- The step loop of lines 688–692, value level: run each step; as soon as a
step yields an empty frame, return a fresh `pd.DataFrame()` without running
the rest. -/
def runStepsT : List (Table → Table) → Table → Table
  | [], t => t
  | f :: rest, t =>
    if (f t).isEmpty then emptyTable else runStepsT rest (f t)

/-- The duplicate-removal phase of lines 652–657, value level:
`drop_duplicates` runs only when duplicated rows exist. -/
def dedupT (t : Table) : Table :=
  if t.rows.Nodup then t else ⟨t.cols, dropDups t.rows⟩

/-- The null-row phase of lines 659–666: the fully-null rows are computed
(line 660) and `df.dropna(how="all")` is evaluated (line 663), but its result
is never assigned back, so the table is returned unchanged. -/
def nullDropT (t : Table) : Table :=
  let _detected := t.rows.filter allNull
  let _dropped : Table := ⟨t.cols, t.rows.filter (fun r => !allNull r)⟩
  t

/-- The final cleanup of lines 695–697 (`df.replace(r'^\s*$', None)` then the
`NaN`-to-`None` map), both of which rebind `df` to fresh frames. -/
def finalCleanup (t : Table) : Table :=
  ⟨t.cols, t.rows.map (fun r => r.map cleanupCell)⟩

/-- `dtype_conversion` (lines 610–633): `astype("string")` on object columns,
the identity on this text-only model of cells (the loop assigns columns in
place). -/
def dtypeConversion (t : Table) : Table := t

/-- The final column projection of lines 701–707: `df[[...]]` raises a
`KeyError` caught by `transform`'s own handler when a canonical column is
missing, producing `pd.DataFrame()`. -/
def projectFinal (t : Table) : Table :=
  if canonicalCols.all (fun c => c ∈ t.cols) then
    ⟨canonicalCols, t.rows.map (fun r => canonicalCols.map (fun c => getVal t.cols r c))⟩
  else emptyTable

/-- `transform` (lines 635–714): the value the call returns.  The working
frame reaching the loop is `nullDropT (dedupT df)`; if the loop's result is
empty (a step failed) it is returned at once, otherwise the final cleanup,
dtype conversion and projection run. -/
def transform (df : Table) : Table :=
  if df.isEmpty then df
  else if (runStepsT pipelineT (nullDropT (dedupT df))).isEmpty then
    runStepsT pipelineT (nullDropT (dedupT df))
  else projectFinal (dtypeConversion (finalCleanup (runStepsT pipelineT (nullDropT (dedupT df)))))

/-! ### State-level pipeline (tracks mutation of the caller's object) -/

def renameStep : PState → PState := stepS (fun _ => true) renameCore
def jobTitlesStep : PState → PState := stepS (colGuard "Job_Title") jobTitlesCore
def salaryStep : PState → PState := stepS (colGuard "Annual_Salary") salaryCore
def addlCompStep : PState → PState := stepS (colGuard "Additional_Comp") addlCompCore

/-- `_standardize_currency_other_cols`, state level: the assignments of
`currencyCore` are in place (they reach the caller's object while aliased);
`df.drop(columns=...)` then rebinds `df` to a fresh frame. -/
def currencyStep (s : PState) : PState :=
  if currencyGuard s.work then
    let s1 := mutate currencyCore s
    rebind (dropCol s1.work "Currency_Other") s1
  else rebind emptyTable s

def timeStep : PState → PState := stepS (colGuard "Timestamp") timeCore
def incomeStep : PState → PState := stepS (colGuard "Income_Context") incomeCore
def countryStep : PState → PState := stepS (colGuard "Country") countryCore
def jobCtxStep : PState → PState := stepS (colGuard "Job_Context") jobCtxCore
def genderStep : PState → PState := stepS (colGuard "Gender") genderCore
def raceStep : PState → PState := stepS (colGuard "Race") raceCore
def eduStep : PState → PState := stepS (colGuard "Education") eduCore
def expStep : PState → PState := stepS (colGuard "Experience") expCore
def expOStep : PState → PState := stepS (colGuard "Experience_Overall") expOCore
def stateStep : PState → PState := stepS (colGuard "State") stateCore
def cityStep : PState → PState := stepS (colGuard "City") cityCore

/-- `transformation_steps` (lines 669–686), in order, state level. -/
def pipelineS : List (PState → PState) :=
  [renameStep, jobTitlesStep, salaryStep, addlCompStep, currencyStep,
   timeStep, incomeStep, countryStep, jobCtxStep, genderStep, raceStep,
   eduStep, expStep, expOStep, stateStep, cityStep]

/-- The step loop of lines 688–692, state level. -/
def runStepsS : List (PState → PState) → PState → PState
  | [], s => s
  | f :: rest, s =>
    if (f s).work.isEmpty then rebind emptyTable (f s) else runStepsS rest (f s)

/-- Lines 652–657 at state level: `df = df.drop_duplicates()` rebinds only
when duplicated rows exist. -/
def dedupPhaseS (s : PState) : PState :=
  if s.work.rows.Nodup then s else rebind ⟨s.work.cols, dropDups s.work.rows⟩ s

/-- The tail of `transform` after the step loop (lines 694–710), state level:
`df.replace`/`df.map` rebind to fresh frames, `dtype_conversion` assigns
columns in place, and the final projection produces a fresh frame. -/
def finishState (s2 : PState) : PState :=
  if s2.work.isEmpty then s2
  else
    rebind (projectFinal (mutate dtypeConversion (rebind (finalCleanup s2.work) s2)).work)
      (mutate dtypeConversion (rebind (finalCleanup s2.work) s2))

/-- `transform` (lines 635–714) with the caller's object tracked. -/
def transformState (df : Table) : PState :=
  if df.isEmpty then ⟨df, df, true⟩
  else finishState (runStepsS pipelineS (dedupPhaseS ⟨df, df, true⟩))

/-! ### Re-supplying a cleaned table under the original raw headers

The idempotence claim speaks about "an already-cleaned table (re-supplied
with original raw headers)".  `rawNameOf` inverts the rename map on the 18
canonical names (the cleaned table has no other columns; in particular the
raw other-currency header, whose column was dropped, does not reappear). -/
def rawNameOf (s : String) : String :=
  if s = "Timestamp" then "Timestamp"
  else if s = "Age" then "How old are you?"
  else if s = "Industry" then "What industry do you work in?"
  else if s = "Job_Title" then "Job title"
  else if s = "Job_Context" then "If your job title needs additional context, please clarify here:"
  else if s = "Annual_Salary" then "What is your annual salary? (You'll indicate the currency in a later question. If you are part-time or hourly, please enter an annualized equivalent -- what you would earn if you worked the job 40 hours a week, 52 weeks a year.)"
  else if s = "Additional_Comp" then "How much additional monetary compensation do you get, if any (for example, bonuses or overtime in an average year)? Please only include monetary compensation here, not the value of benefits."
  else if s = "Currency" then "Please indicate the currency"
  else if s = "Income_Context" then "If your income needs additional context, please provide it here:"
  else if s = "Country" then "What country do you work in?"
  else if s = "State" then "If you're in the U.S., what state do you work in?"
  else if s = "City" then "What city do you work in?"
  else if s = "Experience_Overall" then "How many years of professional work experience do you have overall?"
  else if s = "Experience" then "How many years of professional work experience do you have in your field?"
  else if s = "Education" then "What is your highest level of education completed?"
  else if s = "Gender" then "What is your gender?"
  else if s = "Race" then "What is your race? (Choose all that apply.)"
  else if s = "Seniority" then "Seniority"
  else s

/-- Re-supply a cleaned table under the original raw survey headers. -/
def relabelToRaw (t : Table) : Table := ⟨t.cols.map rawNameOf, t.rows⟩

/-- The header list of a cleaned table after re-supplying it under the raw
headers: note it lacks the raw other-currency header. -/
def relabeledCleanHeaders : List String := canonicalCols.map rawNameOf

/-! ### Concrete tables used by witnesses and counterexamples -/

/-- A survey row with every field missing. -/
def nullRow18 : List Cell := List.replicate 18 none

/-- One realistic survey row (columns in `stdRawHeaders` order). -/
def exRow : List Cell :=
  [none, none, none, some "Senior Software Engineer!!", none, some "$85,000", none,
   some "US Dollar", none, none, some "usa", some "California, US", some "remote",
   none, none, none, none, none]

/-- A one-row raw table carrying `exRow`. -/
def exTable : Table := ⟨stdRawHeaders, [exRow]⟩

/-- A one-row raw table whose only row is fully null. -/
def nullTable : Table := ⟨stdRawHeaders, [nullRow18]⟩

/-- Raw currency `"Other"` clarified as `"Swiss Francs"`. -/
def curOtherTable : Table :=
  ⟨stdRawHeaders, [(nullRow18.set 7 (some "Other")).set 8 (some "Swiss Francs")]⟩

/-- Raw currency `"0"`. -/
def curZeroTable : Table := ⟨stdRawHeaders, [nullRow18.set 7 (some "0")]⟩

/-- A raw table with zero rows (an empty input). -/
def emptyInput : Table := ⟨stdRawHeaders, []⟩

/-- A one-column table on which `_normalize_job_titles` fails (no
`Job title`/`Job_Title` column), driving the step-failure path. -/
def tsOnlyTable : Table := ⟨["Timestamp"], [[some "x"]]⟩

/-- The expected transformed image of the fully-null row, in canonical column
order. -/
def nullRowOut : List Cell :=
  [none, none, some "Prefer not to say", some "Other", some "Prefer not to say",
   none, none, none, none, some "0-1 years", some "0-1 years", none, none, none,
   none, none, none, none]

/-- The 18 raw headers after `_rename_columns` (that is,
`stdRawHeaders.map renameName`). -/
def renamedHeaders : List String :=
  ["Timestamp", "Age", "Industry", "Job_Title", "Job_Context", "Annual_Salary",
   "Additional_Comp", "Currency", "Currency_Other", "Income_Context", "Country",
   "State", "City", "Experience_Overall", "Experience", "Education", "Gender", "Race"]

/-- Column `name` of `t` exists and holds, in every row, a present,
non-whitespace-only string (such a value survives the final cleanup). -/
def Filled (t : Table) (name : String) : Prop :=
  name ∈ t.cols ∧ ∀ r ∈ t.rows, ∃ s, getVal t.cols r name = some s ∧ wsOnly s = false

/-- The pipeline steps before `_standardize_gender`. -/
def preSteps : List (Table → Table) :=
  [renameT, jobTitlesT, salaryT, addlCompT, currencyT, timeT, incomeT,
   countryT, jobCtxT]

/-- `_standardize_gender` and the steps after it. -/
def fillSteps : List (Table → Table) :=
  [genderT, raceT, eduT, expT, expOT, stateT, cityT]

/-! # Theorems -/

/-! ### Index and list lemmas -/

theorem idxOf_lt_length {name : String} :
    ∀ {cols : List String} {i : Nat}, idxOf name cols = some i → i < cols.length := by
  intro cols
  induction cols with
  | nil => intro i h; simp [idxOf] at h
  | cons c rest ih =>
    intro i h
    by_cases hc : c = name
    · rw [idxOf, if_pos hc] at h
      injection h with h
      subst h
      simp
    · rw [idxOf, if_neg hc] at h
      rcases Option.map_eq_some'.mp h with ⟨j, hj, hji⟩
      have := ih hj
      simp only [List.length_cons, ← hji]
      omega

theorem idxOf_getD {name : String} :
    ∀ {cols : List String} {i : Nat}, idxOf name cols = some i → cols.getD i "" = name := by
  intro cols
  induction cols with
  | nil => intro i h; simp [idxOf] at h
  | cons c rest ih =>
    intro i h
    by_cases hc : c = name
    · rw [idxOf, if_pos hc] at h
      injection h with h
      subst h
      simpa using hc
    · rw [idxOf, if_neg hc] at h
      rcases Option.map_eq_some'.mp h with ⟨j, hj, hji⟩
      rw [← hji, List.getD_cons_succ]
      exact ih hj

theorem idxOf_some_mem {name : String} :
    ∀ {cols : List String} {i : Nat}, idxOf name cols = some i → name ∈ cols := by
  intro cols
  induction cols with
  | nil => intro i h; simp [idxOf] at h
  | cons c rest ih =>
    intro i h
    by_cases hc : c = name
    · simp [hc]
    · simp [idxOf, hc] at h
      obtain ⟨j, hj, _⟩ := h
      exact List.mem_cons_of_mem _ (ih hj)

theorem idxOf_eq_none {name : String} :
    ∀ {cols : List String}, idxOf name cols = none ↔ name ∉ cols := by
  intro cols
  induction cols with
  | nil => simp [idxOf]
  | cons c rest ih =>
    by_cases hc : c = name
    · simp [idxOf, hc]
    · have hc' : name ≠ c := fun h => hc h.symm
      simp [idxOf, hc, ih, hc']

theorem mem_idxOf_some {name : String} {cols : List String} (h : name ∈ cols) :
    ∃ i, idxOf name cols = some i := by
  rcases hi : idxOf name cols with _ | i
  · exact absurd h (idxOf_eq_none.mp hi)
  · exact ⟨i, rfl⟩

theorem idxOf_append_of_mem {name : String} :
    ∀ {cols : List String} {l' : List String}, name ∈ cols →
      idxOf name (cols ++ l') = idxOf name cols := by
  intro cols
  induction cols with
  | nil => intro l' h; simp at h
  | cons c rest ih =>
    intro l' h
    by_cases hc : c = name
    · simp [idxOf, hc]
    · have : name ∈ rest := by
        rcases List.mem_cons.mp h with h' | h'
        · exact absurd h'.symm hc
        · exact h'
      simp [idxOf, hc, ih this]

theorem idxOf_ne_of_ne {name name' : String} (h : name ≠ name') {cols : List String}
    {i j : Nat} (hi : idxOf name cols = some i) (hj : idxOf name' cols = some j) :
    i ≠ j := by
  intro hij
  apply h
  rw [← idxOf_getD hi, hij, idxOf_getD hj]

theorem getD_set_ne {α : Type} {v d : α} :
    ∀ {l : List α} {i j : Nat}, i ≠ j → (l.set i v).getD j d = l.getD j d := by
  intro l
  induction l with
  | nil => intro i j _; simp
  | cons a rest ih =>
    intro i j hij
    cases i with
    | zero =>
      cases j with
      | zero => exact absurd rfl hij
      | succ j' => simp [List.set]
    | succ i' =>
      cases j with
      | zero => simp [List.set]
      | succ j' =>
        simp only [List.set, List.getD_cons_succ]
        exact ih (by omega)

theorem getD_set_self {α : Type} {v d : α} :
    ∀ {l : List α} {i : Nat}, i < l.length → (l.set i v).getD i d = v := by
  intro l
  induction l with
  | nil => intro i h; simp at h
  | cons a rest ih =>
    intro i h
    cases i with
    | zero => simp [List.set]
    | succ i' =>
      simp only [List.set, List.getD_cons_succ]
      exact ih (by simpa using h)

theorem getD_append_left {α : Type} {d : α} :
    ∀ {l l' : List α} {i : Nat}, i < l.length → (l ++ l').getD i d = l.getD i d := by
  intro l
  induction l with
  | nil => intro l' i h; simp at h
  | cons a rest ih =>
    intro l' i h
    cases i with
    | zero => simp
    | succ i' =>
      simp only [List.cons_append, List.getD_cons_succ]
      exact ih (by simpa using h)

theorem getD_map_none {f : Cell → Cell} (hf : f none = none) (l : List Cell) (i : Nat) :
    (l.map f).getD i none = f (l.getD i none) := by
  have := @List.getD_map _ _ l none i f
  rwa [hf] at this

/-! ### `drop_duplicates` lemmas -/

theorem mem_dropDupsAux {r : List Cell} :
    ∀ {l seen : List (List Cell)}, r ∈ l → r ∈ dropDupsAux l seen ∨ r ∈ seen := by
  intro l
  induction l with
  | nil => intro seen h; simp at h
  | cons a rest ih =>
    intro seen h
    by_cases ha : a ∈ seen
    · rcases List.mem_cons.mp h with h' | h'
      · subst h'; right; exact ha
      · simpa [dropDupsAux, ha] using ih h'
    · rcases List.mem_cons.mp h with h' | h'
      · subst h'; left; simp [dropDupsAux, ha]
      · rcases @ih (a :: seen) h' with h'' | h''
        · left; simp [dropDupsAux, ha, h'']
        · rcases List.mem_cons.mp h'' with h3 | h3
          · subst h3; left; simp [dropDupsAux, ha]
          · right; exact h3

theorem mem_dropDups {r : List Cell} {l : List (List Cell)} (h : r ∈ l) :
    r ∈ dropDups l := by
  rcases @mem_dropDupsAux r l [] h with h' | h'
  · exact h'
  · simp at h'

theorem dropDupsAux_subset {r : List Cell} :
    ∀ {l seen : List (List Cell)}, r ∈ dropDupsAux l seen → r ∈ l := by
  intro l
  induction l with
  | nil => intro seen h; simp [dropDupsAux] at h
  | cons a rest ih =>
    intro seen h
    by_cases ha : a ∈ seen
    · simp only [dropDupsAux, if_pos ha] at h
      exact List.mem_cons_of_mem _ (ih h)
    · simp only [dropDupsAux, if_neg ha] at h
      rcases List.mem_cons.mp h with h' | h'
      · subst h'; exact List.mem_cons_self _ _
      · exact List.mem_cons_of_mem _ (ih h')

theorem dropDupsAux_eq_self :
    ∀ {l seen : List (List Cell)}, l.Nodup → (∀ x ∈ l, x ∉ seen) →
      dropDupsAux l seen = l := by
  intro l
  induction l with
  | nil => intro seen _ _; rfl
  | cons a rest ih =>
    intro seen hnd hdisj
    have ha : a ∉ seen := hdisj a (List.mem_cons_self _ _)
    have hrest : rest.Nodup := (List.nodup_cons.mp hnd).2
    have hanotin : a ∉ rest := (List.nodup_cons.mp hnd).1
    simp only [dropDupsAux, if_neg ha]
    congr 1
    apply ih hrest
    intro x hx
    simp only [List.mem_cons, not_or]
    exact ⟨fun hxa => hanotin (hxa ▸ hx), hdisj x (List.mem_cons_of_mem _ hx)⟩

theorem dropDups_eq_self {l : List (List Cell)} (h : l.Nodup) : dropDups l = l :=
  dropDupsAux_eq_self h (by simp)

theorem dropDups_ne_nil {l : List (List Cell)} (h : l ≠ []) : dropDups l ≠ [] := by
  cases l with
  | nil => exact absurd rfl h
  | cons a rest => simp [dropDups, dropDupsAux]

/-! ### Emptiness and state-projection lemmas -/

theorem isEmpty_false_iff {t : Table} :
    t.isEmpty = false ↔ t.rows ≠ [] ∧ t.cols ≠ [] := by
  rw [Table.isEmpty, Bool.or_eq_false_iff, List.isEmpty_eq_false, List.isEmpty_eq_false]

theorem isEmpty_mk_false {cs : List String} {rs : List (List Cell)}
    (hr : rs ≠ []) (hc : cs ≠ []) : Table.isEmpty ⟨cs, rs⟩ = false :=
  isEmpty_false_iff.mpr ⟨hr, hc⟩

@[simp] theorem work_mutate (f : Table → Table) (s : PState) :
    (mutate f s).work = f s.work := rfl

@[simp] theorem work_rebind (t : Table) (s : PState) : (rebind t s).work = t := rfl

@[simp] theorem caller_rebind (t : Table) (s : PState) :
    (rebind t s).caller = s.caller := rfl

@[simp] theorem aliased_rebind (t : Table) (s : PState) :
    (rebind t s).aliased = false := rfl

theorem caller_mutate_false {f : Table → Table} {s : PState} (h : s.aliased = false) :
    (mutate f s).caller = s.caller := by simp [mutate, h]

theorem aliased_mutate (f : Table → Table) (s : PState) :
    (mutate f s).aliased = s.aliased := rfl

/-- The state-level and value-level versions of a cleaning step compute the
same frame for `df`. -/
theorem stepS_work (g : Table → Bool) (c : Table → Table) (s : PState) :
    (stepS g c s).work = stepT g c s.work := by
  unfold stepS stepT
  split <;> rfl

theorem currencyStep_work (s : PState) : (currencyStep s).work = currencyT s.work := by
  unfold currencyStep currencyT
  split <;> rfl

theorem dedupPhaseS_work (s : PState) : (dedupPhaseS s).work = dedupT s.work := by
  unfold dedupPhaseS dedupT
  split <;> rfl

theorem runSteps_work_eq :
    ∀ {fsS : List (PState → PState)} {fsT : List (Table → Table)},
      List.Forall₂ (fun fS fT => ∀ s, (fS s).work = fT s.work) fsS fsT →
      ∀ s, (runStepsS fsS s).work = runStepsT fsT s.work := by
  intro fsS fsT h
  induction h with
  | nil => intro s; rfl
  | @cons fS fT restS restT hf _ ih =>
    intro s
    have hw := hf s
    by_cases hE : (fT s.work).isEmpty = true
    · simp [runStepsS, runStepsT, hw, hE]
    · simp only [Bool.not_eq_true] at hE
      simp only [runStepsS, runStepsT, hw, hE, Bool.false_eq_true, if_false]
      rw [ih (fS s), hw]

theorem pipeline_work_eq :
    List.Forall₂ (fun fS fT => ∀ s, (fS s).work = fT s.work) pipelineS pipelineT := by
  unfold pipelineS pipelineT
  refine .cons (stepS_work _ _) (.cons (stepS_work _ _) (.cons (stepS_work _ _)
    (.cons (stepS_work _ _) (.cons currencyStep_work (.cons (stepS_work _ _)
    (.cons (stepS_work _ _) (.cons (stepS_work _ _) (.cons (stepS_work _ _)
    (.cons (stepS_work _ _) (.cons (stepS_work _ _) (.cons (stepS_work _ _)
    (.cons (stepS_work _ _) (.cons (stepS_work _ _) (.cons (stepS_work _ _)
    (.cons (stepS_work _ _) .nil)))))))))))))))

theorem finishState_work (s : PState) :
    (finishState s).work =
      if s.work.isEmpty then s.work
      else projectFinal (dtypeConversion (finalCleanup s.work)) := by
  by_cases h : s.work.isEmpty = true
  · rw [finishState, if_pos h, if_pos h]
  · rw [finishState, if_neg h, if_neg h]
    rfl

/-- The state-level driver computes exactly the table `transform` returns. -/
theorem transform_eq_state (df : Table) : transform df = (transformState df).work := by
  unfold transform transformState
  by_cases hE : df.isEmpty = true
  · rw [if_pos hE, if_pos hE]
  · rw [if_neg hE, if_neg hE, finishState_work]
    have hrun : (runStepsS pipelineS (dedupPhaseS ⟨df, df, true⟩)).work
        = runStepsT pipelineT (nullDropT (dedupT df)) := by
      rw [runSteps_work_eq pipeline_work_eq, dedupPhaseS_work]
      rfl
    rw [hrun]

/-! ### Step-loop structure lemmas -/

theorem runStepsT_nil (t : Table) : runStepsT [] t = t := rfl

theorem runStepsT_cons_ne {f : Table → Table} {rest : List (Table → Table)} {t : Table}
    (h : (f t).isEmpty = false) : runStepsT (f :: rest) t = runStepsT rest (f t) := by
  simp [runStepsT, h]

theorem runStepsT_cons_empty {f : Table → Table} {rest : List (Table → Table)} {t : Table}
    (h : (f t).isEmpty = true) : runStepsT (f :: rest) t = emptyTable := by
  simp [runStepsT, h]

theorem runStepsT_append :
    ∀ {a b : List (Table → Table)} {t : Table}, t.isEmpty = false →
      runStepsT (a ++ b) t =
        (if (runStepsT a t).isEmpty = true then runStepsT a t else runStepsT b (runStepsT a t)) := by
  intro a
  induction a with
  | nil =>
    intro b t h
    simp [runStepsT, h]
  | cons f a' ih =>
    intro b t h
    by_cases hE : (f t).isEmpty = true
    · rw [List.cons_append, runStepsT_cons_empty hE, runStepsT_cons_empty hE]
      simp [emptyTable, Table.isEmpty]
    · simp only [Bool.not_eq_true] at hE
      rw [List.cons_append, runStepsT_cons_ne hE, runStepsT_cons_ne hE]
      exact ih hE

theorem runStepsT_empty_eq :
    ∀ {fs : List (Table → Table)} {t : Table}, t.isEmpty = false →
      (runStepsT fs t).isEmpty = true → runStepsT fs t = emptyTable := by
  intro fs
  induction fs with
  | nil =>
    intro t h h2
    rw [runStepsT] at h2
    rw [h2] at h
    simp at h
  | cons f rest ih =>
    intro t h h2
    by_cases hE : (f t).isEmpty = true
    · exact runStepsT_cons_empty hE
    · simp only [Bool.not_eq_true] at hE
      rw [runStepsT_cons_ne hE] at h2 ⊢
      exact ih hE h2

/-! ### Rectangularity is preserved by every step -/

theorem WF_emptyTable : emptyTable.WF := by
  intro r h
  simp [emptyTable] at h

theorem WF_setCol {t : Table} {name : String} {f : List Cell → Cell} (h : t.WF) :
    (setCol t name f).WF := by
  unfold setCol
  rcases hi : idxOf name t.cols with _ | i
  · intro r' hr'
    rcases List.mem_map.mp hr' with ⟨r, hr, rfl⟩
    simp [h r hr]
  · intro r' hr'
    rcases List.mem_map.mp hr' with ⟨r, hr, rfl⟩
    simp [h r hr]

theorem setCol_rows_eq_nil {t : Table} {name : String} {f : List Cell → Cell} :
    ((setCol t name f).rows = []) ↔ t.rows = [] := by
  rcases h : idxOf name t.cols with _ | i
  · simp [setCol, h]
  · simp [setCol, h]

theorem WF_dropCol {t : Table} {name : String} (h : t.WF) : (dropCol t name).WF := by
  unfold dropCol
  rcases hi : idxOf name t.cols with _ | i
  · exact h
  · intro r' hr'
    rcases List.mem_map.mp hr' with ⟨r, hr, rfl⟩
    have hlen := h r hr
    have hilt : i < t.cols.length := idxOf_lt_length hi
    rw [List.length_eraseIdx_of_lt (hlen ▸ hilt), List.length_eraseIdx_of_lt hilt, hlen]

theorem WF_renameCore {t : Table} (h : t.WF) : (renameCore t).WF := by
  intro r hr
  simpa [renameCore] using h r hr

theorem WF_finalCleanup {t : Table} (h : t.WF) : (finalCleanup t).WF := by
  intro r' hr'
  rcases List.mem_map.mp hr' with ⟨r, hr, rfl⟩
  simpa [finalCleanup] using h r hr

theorem WF_dedupT {t : Table} (h : t.WF) : (dedupT t).WF := by
  unfold dedupT
  split
  · exact h
  · intro r hr
    exact h r (dropDupsAux_subset hr)

theorem nullDropT_eq (t : Table) : nullDropT t = t := rfl

theorem WF_stepT {g : Table → Bool} {core : Table → Table}
    (hcore : ∀ t, t.WF → (core t).WF) {t : Table} (h : t.WF) : (stepT g core t).WF := by
  unfold stepT
  split
  · exact hcore t h
  · exact WF_emptyTable

theorem pipelineT_WF : ∀ f ∈ pipelineT, ∀ t : Table, t.WF → (f t).WF := by
  intro f hf
  have hjt : ∀ t : Table, t.WF → (jobTitlesCore t).WF := fun t h =>
    WF_setCol (WF_setCol h)
  simp only [pipelineT, List.mem_cons, List.not_mem_nil, or_false] at hf
  rcases hf with rfl | rfl | rfl | rfl | rfl | rfl | rfl | rfl | rfl | rfl | rfl | rfl
    | rfl | rfl | rfl | rfl
  · exact fun t h => WF_stepT (fun t h => WF_renameCore h) h
  · exact fun t h => WF_stepT hjt h
  · exact fun t h => WF_stepT (fun t h => WF_setCol h) h
  · exact fun t h => WF_stepT (fun t h => WF_setCol h) h
  · intro t h
    unfold currencyT
    split
    · exact WF_dropCol (WF_setCol h)
    · exact WF_emptyTable
  · exact fun t h => WF_stepT (fun t h => WF_setCol h) h
  · exact fun t h => WF_stepT (fun t h => WF_setCol h) h
  · exact fun t h => WF_stepT (fun t h => WF_setCol h) h
  · exact fun t h => WF_stepT (fun t h => WF_setCol h) h
  · exact fun t h => WF_stepT (fun t h => WF_setCol h) h
  · exact fun t h => WF_stepT (fun t h => WF_setCol h) h
  · exact fun t h => WF_stepT (fun t h => WF_setCol h) h
  · exact fun t h => WF_stepT (fun t h => WF_setCol h) h
  · exact fun t h => WF_stepT (fun t h => WF_setCol h) h
  · exact fun t h => WF_stepT (fun t h => WF_setCol h) h
  · exact fun t h => WF_stepT (fun t h => WF_setCol h) h

theorem runStepsT_WF :
    ∀ {fs : List (Table → Table)}, (∀ f ∈ fs, ∀ t : Table, t.WF → (f t).WF) →
      ∀ {t : Table}, t.WF → (runStepsT fs t).WF := by
  intro fs
  induction fs with
  | nil => intro _ t h; exact h
  | cons f rest ih =>
    intro hall t h
    unfold runStepsT
    split
    · exact WF_emptyTable
    · exact ih (fun g hg => hall g (List.mem_cons_of_mem _ hg))
        (hall f (List.mem_cons_self _ _) t h)

/-! ### Whitespace preservation of `title` and `strip` -/

theorem mapPairs_mem :
    ∀ {ps : List (Char × Char)} {c u : Char}, mapPairs ps c = some u → (c, u) ∈ ps := by
  intro ps
  induction ps with
  | nil => intro c u h; simp [mapPairs] at h
  | cons p rest ih =>
    intro c u h
    obtain ⟨a, b⟩ := p
    by_cases hc : c = a
    · rw [mapPairs, if_pos hc] at h
      injection h with h
      subst hc
      subst h
      exact List.mem_cons_self _ _
    · rw [mapPairs, if_neg hc] at h
      exact List.mem_cons_of_mem _ (ih h)

theorem isSp_upChar (c : Char) : isSp (upChar c) = isSp c := by
  unfold upChar
  rcases h : mapPairs azUpper c with _ | u
  · rfl
  · have hmem := mapPairs_mem h
    have hsp : ∀ p ∈ azUpper, isSp p.1 = false ∧ isSp p.2 = false := by decide
    obtain ⟨h1, h2⟩ := hsp _ hmem
    simp only [Option.getD_some]
    rw [h1, h2]

theorem isSp_downChar (c : Char) : isSp (downChar c) = isSp c := by
  unfold downChar
  rcases h : mapPairs azLower c with _ | u
  · rfl
  · have hmem := mapPairs_mem h
    have hsp : ∀ p ∈ azLower, isSp p.1 = false ∧ isSp p.2 = false := by decide
    obtain ⟨h1, h2⟩ := hsp _ hmem
    simp only [Option.getD_some]
    rw [h1, h2]

theorem allSp_pyTitleAux : ∀ (l : List Char) (b : Bool), allSp (pyTitleAux b l) = allSp l := by
  intro l
  induction l with
  | nil => intro b; rfl
  | cons c rest ih =>
    intro b
    show ((if b then downChar c else upChar c) :: pyTitleAux (isAlphaCh c) rest).all isSp
      = (c :: rest).all isSp
    rw [List.all_cons, List.all_cons]
    have hhd : isSp (if b then downChar c else upChar c) = isSp c := by
      cases b
      · exact isSp_upChar c
      · exact isSp_downChar c
    rw [hhd]
    have := ih (isAlphaCh c)
    unfold allSp at this
    rw [this]

theorem wsOnly_pyTitle (s : String) : wsOnly (pyTitle s) = wsOnly s :=
  allSp_pyTitleAux s.data false

theorem allSp_dropWhile :
    ∀ l : List Char, (l.dropWhile isSp).all isSp = l.all isSp := by
  intro l
  induction l with
  | nil => rfl
  | cons c rest ih =>
    by_cases hc : isSp c = true
    · rw [List.dropWhile_cons_of_pos hc, List.all_cons, hc, Bool.true_and, ih]
    · simp only [Bool.not_eq_true] at hc
      rw [List.dropWhile_cons_of_neg (by simp [hc]), List.all_cons, hc, Bool.false_and]

theorem wsOnly_pyStrip (s : String) : wsOnly (pyStrip s) = wsOnly s := by
  show allSp (((s.data.dropWhile isSp).reverse.dropWhile isSp).reverse) = allSp s.data
  unfold allSp
  rw [List.all_reverse, allSp_dropWhile, List.all_reverse, allSp_dropWhile]

/-! ### The five fill-in cell operations always produce a present,
non-whitespace value -/

theorem genderCell_spec (v : Cell) :
    ∃ s, genderCell v = some s ∧ wsOnly s = false := by
  cases v with
  | none => exact ⟨"Prefer not to say", rfl, by decide⟩
  | some s =>
    rcases hb : wsOnly s with _ | _
    · refine ⟨genderRep s, by simp [genderCell, hb], ?_⟩
      unfold genderRep
      repeat' split
      all_goals first | decide | exact hb
    · exact ⟨"Prefer not to say", by simp [genderCell, hb], by decide⟩

theorem raceCell_spec (v : Cell) :
    ∃ s, raceCell v = some s ∧ wsOnly s = false := by
  cases v with
  | none => exact ⟨"Other", rfl, by decide⟩
  | some s =>
    rcases hb : wsOnly s with _ | _
    · refine ⟨pyTitle (raceRep s), by simp [raceCell, hb], ?_⟩
      rw [wsOnly_pyTitle]
      unfold raceRep
      repeat' split
      all_goals first | decide | exact hb
    · exact ⟨"Other", by simp [raceCell, hb], by decide⟩

theorem eduCell_spec (v : Cell) :
    ∃ s, eduCell v = some s ∧ wsOnly s = false := by
  cases v with
  | none => exact ⟨"Prefer not to say", rfl, by decide⟩
  | some s =>
    rcases hb : wsOnly s with _ | _
    · refine ⟨eduRep s, by simp [eduCell, hb], ?_⟩
      unfold eduRep
      repeat' split
      all_goals first | decide | exact hb
    · exact ⟨"Prefer not to say", by simp [eduCell, hb], by decide⟩

theorem expCell_spec (v : Cell) :
    ∃ s, expCell v = some s ∧ wsOnly s = false := by
  cases v with
  | none => exact ⟨"0-1 years", rfl, by decide⟩
  | some s =>
    rcases hb : wsOnly s with _ | _
    · refine ⟨expRep (pyStrip s), by simp [expCell, hb], ?_⟩
      have hstrip : wsOnly (pyStrip s) = false := by rw [wsOnly_pyStrip]; exact hb
      unfold expRep
      repeat' split
      all_goals first | decide | exact hstrip
    · exact ⟨"0-1 years", by simp [expCell, hb], by decide⟩

theorem expOCell_spec (v : Cell) :
    ∃ s, expOCell v = some s ∧ wsOnly s = false := by
  cases v with
  | none => exact ⟨"0-1 years", rfl, by decide⟩
  | some s =>
    rcases hb : wsOnly s with _ | _
    · refine ⟨expORep (pyStrip s), by simp [expOCell, hb], ?_⟩
      have hstrip : wsOnly (pyStrip s) = false := by rw [wsOnly_pyStrip]; exact hb
      unfold expORep
      repeat' split
      all_goals first | decide | exact hstrip
    · exact ⟨"0-1 years", by simp [expOCell, hb], by decide⟩

/-! ### `Filled` is established by the five fill-in steps and preserved by the
rest of the pipeline -/

theorem getVal_eq {cols : List String} {name : String} {i : Nat} (r : List Cell)
    (h : idxOf name cols = some i) : getVal cols r name = r.getD i none := by
  simp only [getVal, h]

theorem Filled_setCol_self {t : Table} {name : String} {f : List Cell → Cell}
    (hwf : t.WF) (hmem : name ∈ t.cols)
    (hf : ∀ r ∈ t.rows, ∃ s, f r = some s ∧ wsOnly s = false) :
    Filled (setCol t name f) name := by
  obtain ⟨i, hi⟩ := mem_idxOf_some hmem
  simp only [setCol, hi]
  refine ⟨hmem, ?_⟩
  intro r' hr'
  rcases List.mem_map.mp hr' with ⟨r, hr, rfl⟩
  have hilt : i < r.length := by
    rw [hwf r hr]
    exact idxOf_lt_length hi
  rcases hf r hr with ⟨s, hs, hws⟩
  refine ⟨s, ?_, hws⟩
  rw [getVal_eq _ hi, getD_set_self hilt, hs]

theorem Filled_setCol_frame {t : Table} {name name' : String} {f : List Cell → Cell}
    (hwf : t.WF) (hne : name' ≠ name) (h : Filled t name') :
    Filled (setCol t name f) name' := by
  obtain ⟨hmem', hvals⟩ := h
  obtain ⟨j, hj⟩ := mem_idxOf_some hmem'
  rcases hi : idxOf name t.cols with _ | i
  · simp only [setCol, hi]
    refine ⟨List.mem_append_left _ hmem', ?_⟩
    intro r' hr'
    rcases List.mem_map.mp hr' with ⟨r, hr, rfl⟩
    rcases hvals r hr with ⟨s, hs, hws⟩
    refine ⟨s, ?_, hws⟩
    have hjlt : j < r.length := by
      rw [hwf r hr]
      exact idxOf_lt_length hj
    have hj' : idxOf name' (t.cols ++ [name]) = some j := by
      rw [idxOf_append_of_mem hmem']
      exact hj
    rw [getVal_eq _ hj', getD_append_left hjlt]
    rw [getVal_eq _ hj] at hs
    exact hs
  · simp only [setCol, hi]
    refine ⟨hmem', ?_⟩
    intro r' hr'
    rcases List.mem_map.mp hr' with ⟨r, hr, rfl⟩
    rcases hvals r hr with ⟨s, hs, hws⟩
    refine ⟨s, ?_, hws⟩
    rw [getVal_eq _ hj] at hs
    rw [getVal_eq _ hj, getD_set_ne (idxOf_ne_of_ne (fun h => hne h.symm) hi hj), hs]

theorem Filled_finalCleanup {t : Table} {name : String} (h : Filled t name) :
    Filled (finalCleanup t) name := by
  obtain ⟨hmem, hvals⟩ := h
  obtain ⟨j, hj⟩ := mem_idxOf_some hmem
  refine ⟨hmem, ?_⟩
  intro r' hr'
  rcases List.mem_map.mp hr' with ⟨r, hr, rfl⟩
  rcases hvals r hr with ⟨s, hs, hws⟩
  refine ⟨s, ?_, hws⟩
  show getVal t.cols (r.map cleanupCell) name = some s
  rw [getVal_eq _ hj] at hs
  rw [getVal_eq _ hj, getD_map_none rfl, hs]
  simp [cleanupCell, hws]

/-! ### Deduplication keeps emptiness unchanged -/

theorem dropDups_isEmpty (l : List (List Cell)) : (dropDups l).isEmpty = l.isEmpty := by
  cases l with
  | nil => rfl
  | cons a rest => simp [dropDups, dropDupsAux]

theorem dedupT_isEmpty (t : Table) : (dedupT t).isEmpty = t.isEmpty := by
  unfold dedupT
  split
  · rfl
  · show ((dropDups t.rows).isEmpty || t.cols.isEmpty) = (t.rows.isEmpty || t.cols.isEmpty)
    rw [dropDups_isEmpty]

theorem mem_dedupT {t : Table} {r : List Cell} (h : r ∈ t.rows) : r ∈ (dedupT t).rows := by
  unfold dedupT
  split
  · exact h
  · exact mem_dropDups h

/-! ## The claims -/

/-- **C4.** For every empty input table, `transform` returns it unchanged
before any cleaning step runs; a successful no-op, not a failure. -/
theorem c4_empty_input_is_noop (df : Table) (h : df.isEmpty = true) :
    transform df = df := by
  unfold transform
  rw [if_pos h]

/-- Witness for **C4** at a concrete empty input (a table with the raw survey
headers and zero rows). -/
theorem c4_empty_input_is_noop_witness :
    emptyInput.isEmpty = true ∧ transform emptyInput = emptyInput :=
  ⟨by decide, c4_empty_input_is_noop emptyInput (by decide)⟩

/-- **C1.** For every input table, the table `transform` returns either has
exactly the 18 canonical columns in exactly the canonical order, or is an
empty table. -/
theorem c1_output_schema_or_empty (df : Table) :
    (transform df).cols = canonicalCols ∨ (transform df).isEmpty = true := by
  unfold transform
  by_cases hE : df.isEmpty = true
  · right
    rw [if_pos hE]
    exact hE
  · rw [if_neg hE]
    by_cases h2 : (runStepsT pipelineT (nullDropT (dedupT df))).isEmpty = true
    · right
      rw [if_pos h2]
      exact h2
    · rw [if_neg h2]
      unfold projectFinal
      split
      · left; rfl
      · right; rfl

/-- **C5.** Fully-null rows are detected (they are in the computed
`all_null_rows` set of line 660) but not removed: `df.dropna(how="all")` on
line 663 is never assigned back, so such a row is still present in the
working table after the null-row phase. -/
theorem c5_null_rows_detected_not_removed (df : Table) (r : List Cell)
    (hmem : r ∈ df.rows) (hnull : allNull r = true) :
    r ∈ ((dedupT df).rows.filter allNull) ∧ r ∈ (nullDropT (dedupT df)).rows := by
  have hd : r ∈ (dedupT df).rows := mem_dedupT hmem
  exact ⟨List.mem_filter.mpr ⟨hd, hnull⟩, hd⟩

/-- Witness for **C5**: the fully-null row of a concrete table is detected and
survives the null-row phase. -/
theorem c5_null_rows_detected_not_removed_witness :
    nullRow18 ∈ nullTable.rows ∧ allNull nullRow18 = true ∧
      (nullRow18 ∈ ((dedupT nullTable).rows.filter allNull) ∧
       nullRow18 ∈ (nullDropT (dedupT nullTable)).rows) :=
  ⟨by decide, by decide,
   c5_null_rows_detected_not_removed nullTable nullRow18 (by decide) (by decide)⟩

/-- **C2.** When a cleaning step fails internally (modelled: it returns the
empty frame its `except` clause produces), the driver halts: the remaining
steps never run (the loop's value does not depend on them) and `transform`
returns an empty table — no partial-pipeline output. -/
theorem c2_step_failure_halts_pipeline (df : Table)
    (pre : List (Table → Table)) (f : Table → Table) (post : List (Table → Table))
    (hpipe : pipelineT = pre ++ f :: post)
    (hdf : df.isEmpty = false)
    (hpre : (runStepsT pre (nullDropT (dedupT df))).isEmpty = false)
    (hfail : (f (runStepsT pre (nullDropT (dedupT df)))).isEmpty = true) :
    transform df = emptyTable ∧
      ∀ post' : List (Table → Table),
        runStepsT (pre ++ f :: post') (nullDropT (dedupT df)) = emptyTable := by
  have hstart : (nullDropT (dedupT df)).isEmpty = false := by
    rw [nullDropT_eq, dedupT_isEmpty]
    exact hdf
  have hhalt : ∀ post' : List (Table → Table),
      runStepsT (pre ++ f :: post') (nullDropT (dedupT df)) = emptyTable := by
    intro post'
    rw [runStepsT_append hstart, if_neg (by rw [hpre]; exact Bool.false_ne_true),
      runStepsT_cons_empty hfail]
  refine ⟨?_, hhalt⟩
  unfold transform
  rw [if_neg (by rw [hdf]; exact Bool.false_ne_true)]
  have h2 : runStepsT pipelineT (nullDropT (dedupT df)) = emptyTable := by
    rw [hpipe]
    exact hhalt post
  simp only [h2]
  rfl

/-- Witness for **C2**: on a one-column table `_rename_columns` succeeds and
`_normalize_job_titles` fails (no `Job_Title` column), and `transform` returns
the empty table. -/
theorem c2_step_failure_halts_pipeline_witness :
    pipelineT = [renameT] ++ jobTitlesT ::
        [salaryT, addlCompT, currencyT, timeT, incomeT, countryT, jobCtxT,
         genderT, raceT, eduT, expT, expOT, stateT, cityT] ∧
    tsOnlyTable.isEmpty = false ∧
    (runStepsT [renameT] (nullDropT (dedupT tsOnlyTable))).isEmpty = false ∧
    (jobTitlesT (runStepsT [renameT] (nullDropT (dedupT tsOnlyTable)))).isEmpty = true ∧
    transform tsOnlyTable = emptyTable :=
  ⟨rfl, by decide, by decide, by decide,
   (c2_step_failure_halts_pipeline tsOnlyTable [renameT] jobTitlesT
     [salaryT, addlCompT, currencyT, timeT, incomeT, countryT, jobCtxT,
      genderT, raceT, eduT, expT, expOT, stateT, cityT]
     rfl (by decide) (by decide) (by decide)).1⟩

/-- **C8.** Job-title normalization lowercases and strips punctuation, and
Seniority is the mapped first matched keyword: for the raw Job_Title
`"Senior Software Engineer!!"` the output Job_Title is
`"senior software engineer"` and the output Seniority is `"Senior"`. -/
theorem c8_job_title_normalization :
    getVal (transform exTable).cols ((transform exTable).rows.getD 0 []) "Job_Title"
        = some "senior software engineer" ∧
    getVal (transform exTable).cols ((transform exTable).rows.getD 0 []) "Seniority"
        = some "Senior" := by
  decide

/-- **C9.** Currency standardization: `"US Dollar"` maps to `"USD"`; a raw
`"Other"` currency takes the other-currency field's value, so
`"Swiss Francs"` yields the uppercased, unmapped `"SWISS FRANCS"`; a raw
`"0"` produces a null Currency, and the replacement table itself maps the
literal `"0"` to null. -/
theorem c9_currency_standardization :
    getVal (transform exTable).cols ((transform exTable).rows.getD 0 []) "Currency"
        = some "USD" ∧
    getVal (transform curOtherTable).cols ((transform curOtherTable).rows.getD 0 [])
        "Currency" = some "SWISS FRANCS" ∧
    getVal (transform curZeroTable).cols ((transform curZeroTable).rows.getD 0 [])
        "Currency" = none ∧
    currencyRep "0" = none := by
  decide

/-- **C6, counterexample.** Running `transform` again on a cleaned output
re-supplied under the original raw headers does not reproduce the cleaned
table: at this concrete input the first run is non-empty while the second run
is not equal to it (the second run returns the empty table). -/
theorem c6_idempotence_counterexample :
    (transform exTable).isEmpty = false ∧
    transform (relabelToRaw (transform exTable)) ≠ transform exTable := by
  decide

/-- **C6, amended.** A cleaned table re-supplied under the original raw
headers lacks the dropped raw other-currency column, so on any non-empty such
table the second run's currency step fails and `transform` returns the empty
table (instead of reproducing the first run's result). -/
theorem c6_second_run_returns_empty (t : Table)
    (hcols : t.cols = relabeledCleanHeaders) (hrows : t.rows ≠ []) :
    transform t = emptyTable := by
  obtain ⟨cols, rows⟩ := t
  simp only at hcols hrows
  subst hcols
  unfold transform
  rw [if_neg (by rw [isEmpty_mk_false hrows (by decide)]; exact Bool.false_ne_true)]
  obtain ⟨rs1, hd, hne1⟩ : ∃ rs1,
      dedupT ⟨relabeledCleanHeaders, rows⟩ = ⟨relabeledCleanHeaders, rs1⟩ ∧ rs1 ≠ [] := by
    unfold dedupT
    split
    · exact ⟨rows, rfl, hrows⟩
    · exact ⟨dropDups rows, rfl, dropDups_ne_nil hrows⟩
  rw [nullDropT_eq, hd]
  have hrun : runStepsT pipelineT ⟨relabeledCleanHeaders, rs1⟩ = emptyTable := by
    rw [show pipelineT = renameT :: jobTitlesT :: salaryT :: addlCompT :: currencyT ::
      [timeT, incomeT, countryT, jobCtxT, genderT, raceT, eduT, expT, expOT,
       stateT, cityT] from rfl]
    have e1 : renameT ⟨relabeledCleanHeaders, rs1⟩ = ⟨canonicalCols, rs1⟩ := rfl
    rw [runStepsT_cons_ne (by rw [e1]; exact isEmpty_mk_false hne1 (by decide)), e1]
    obtain ⟨rs2, e2, hne2⟩ : ∃ rs2,
        jobTitlesT ⟨canonicalCols, rs1⟩ = ⟨canonicalCols, rs2⟩ ∧ rs2 ≠ [] := by
      refine ⟨_, rfl, ?_⟩
      intro hc
      apply hne1
      rwa [List.map_eq_nil_iff, setCol_rows_eq_nil] at hc
    rw [runStepsT_cons_ne (by rw [e2]; exact isEmpty_mk_false hne2 (by decide)), e2]
    obtain ⟨rs3, e3, hne3⟩ : ∃ rs3,
        salaryT ⟨canonicalCols, rs2⟩ = ⟨canonicalCols, rs3⟩ ∧ rs3 ≠ [] := by
      refine ⟨_, rfl, ?_⟩
      intro hc
      apply hne2
      rwa [List.map_eq_nil_iff] at hc
    rw [runStepsT_cons_ne (by rw [e3]; exact isEmpty_mk_false hne3 (by decide)), e3]
    obtain ⟨rs4, e4, hne4⟩ : ∃ rs4,
        addlCompT ⟨canonicalCols, rs3⟩ = ⟨canonicalCols, rs4⟩ ∧ rs4 ≠ [] := by
      refine ⟨_, rfl, ?_⟩
      intro hc
      apply hne3
      rwa [List.map_eq_nil_iff] at hc
    rw [runStepsT_cons_ne (by rw [e4]; exact isEmpty_mk_false hne4 (by decide)), e4]
    have e5 : currencyT ⟨canonicalCols, rs4⟩ = emptyTable := rfl
    rw [runStepsT_cons_empty (by rw [e5]; rfl)]
  rw [hrun]
  rfl

/-- Witness for **C6, amended**, at the concrete re-supplied cleaned table. -/
theorem c6_second_run_returns_empty_witness :
    (relabelToRaw (transform exTable)).cols = relabeledCleanHeaders ∧
    (relabelToRaw (transform exTable)).rows ≠ [] ∧
    transform (relabelToRaw (transform exTable)) = emptyTable :=
  ⟨by decide, by decide, c6_second_run_returns_empty _ (by decide) (by decide)⟩

/-! ### Once `df` stops aliasing the caller's object, the caller's frame is
frozen -/

theorem stepS_caller_frozen (g : Table → Bool) (c : Table → Table) (s : PState)
    (h : s.aliased = false) :
    (stepS g c s).caller = s.caller ∧ (stepS g c s).aliased = false := by
  unfold stepS
  split
  · exact ⟨caller_mutate_false h, by rw [aliased_mutate]; exact h⟩
  · exact ⟨rfl, rfl⟩

theorem currencyStep_caller_frozen (s : PState) (h : s.aliased = false) :
    (currencyStep s).caller = s.caller ∧ (currencyStep s).aliased = false := by
  unfold currencyStep
  split
  · exact ⟨caller_mutate_false h, rfl⟩
  · exact ⟨rfl, rfl⟩

theorem runStepsS_caller_frozen :
    ∀ {fs : List (PState → PState)},
      (∀ f ∈ fs, ∀ s : PState, s.aliased = false →
        (f s).caller = s.caller ∧ (f s).aliased = false) →
      ∀ {s : PState}, s.aliased = false →
        (runStepsS fs s).caller = s.caller ∧ (runStepsS fs s).aliased = false := by
  intro fs
  induction fs with
  | nil => intro _ s h; exact ⟨rfl, h⟩
  | cons f rest ih =>
    intro hall s h
    have hf := hall f (List.mem_cons_self _ _) s h
    unfold runStepsS
    split
    · exact ⟨hf.1, rfl⟩
    · have := ih (fun g hg => hall g (List.mem_cons_of_mem _ hg)) hf.2
      exact ⟨this.1.trans hf.1, this.2⟩

theorem runStepsS_cons_caller_frozen {f : PState → PState}
    {rest : List (PState → PState)} {s : PState}
    (hrest : ∀ f' ∈ rest, ∀ s' : PState, s'.aliased = false →
      (f' s').caller = s'.caller ∧ (f' s').aliased = false)
    (hfa : (f s).aliased = false) :
    (runStepsS (f :: rest) s).caller = (f s).caller := by
  unfold runStepsS
  split
  · rfl
  · exact (runStepsS_caller_frozen hrest hfa).1

theorem finishState_caller (s : PState) : (finishState s).caller = s.caller := by
  unfold finishState
  split
  · rfl
  · rfl

theorem runStepsS_cons_ne {f : PState → PState} {rest : List (PState → PState)}
    {s : PState} (h : (f s).work.isEmpty = false) :
    runStepsS (f :: rest) s = runStepsS rest (f s) := by
  simp [runStepsS, h]

/-- **C7, counterexample.** `transform` is not free of side effects on the
caller's table: at this concrete input the caller's frame after the call
differs from the frame passed in. -/
theorem c7_input_mutation_counterexample :
    (transformState exTable).caller ≠ exTable := by
  decide

/-- **C7, amended.** The early cleaning steps operate on the caller's own
frame: on a non-empty input with the standard raw headers and no duplicate
rows (so `drop_duplicates` never rebinds `df` to a copy), the in-place rename
and the job-title step mutate the caller's object, whose columns afterwards
are the renamed headers plus the appended `Seniority` — not the caller's
original raw headers.  Only from the currency step's `drop` (which rebinds
the working frame) onward do changes stop reaching the caller. -/
theorem c7_caller_table_mutated (t : Table) (hcols : t.cols = stdRawHeaders)
    (hrows : t.rows ≠ []) (hnd : t.rows.Nodup) :
    (transformState t).caller.cols = renamedHeaders ++ ["Seniority"] ∧
    (transformState t).caller.cols ≠ t.cols := by
  obtain ⟨cols, rows⟩ := t
  simp only at hcols hrows hnd
  subst hcols
  refine and_iff_left_of_imp (fun h => ?_) |>.mpr ?_
  · rw [h]
    show renamedHeaders ++ ["Seniority"] ≠ stdRawHeaders
    decide
  unfold transformState
  rw [if_neg (by rw [isEmpty_mk_false hrows (by decide)]; exact Bool.false_ne_true)]
  rw [finishState_caller]
  have hdp : dedupPhaseS ⟨⟨stdRawHeaders, rows⟩, ⟨stdRawHeaders, rows⟩, true⟩
      = ⟨⟨stdRawHeaders, rows⟩, ⟨stdRawHeaders, rows⟩, true⟩ := by
    unfold dedupPhaseS
    rw [if_pos hnd]
  rw [hdp]
  rw [show pipelineS = renameStep :: jobTitlesStep :: salaryStep :: addlCompStep ::
    currencyStep :: [timeStep, incomeStep, countryStep, jobCtxStep, genderStep,
    raceStep, eduStep, expStep, expOStep, stateStep, cityStep] from rfl]
  have e1 : renameStep ⟨⟨stdRawHeaders, rows⟩, ⟨stdRawHeaders, rows⟩, true⟩
      = ⟨⟨renamedHeaders, rows⟩, ⟨renamedHeaders, rows⟩, true⟩ := rfl
  rw [runStepsS_cons_ne (by rw [e1]; exact isEmpty_mk_false hrows (by decide)), e1]
  obtain ⟨rs2, e2, hne2⟩ : ∃ rs2,
      jobTitlesStep ⟨⟨renamedHeaders, rows⟩, ⟨renamedHeaders, rows⟩, true⟩
        = ⟨⟨renamedHeaders ++ ["Seniority"], rs2⟩,
           ⟨renamedHeaders ++ ["Seniority"], rs2⟩, true⟩ ∧ rs2 ≠ [] := by
    refine ⟨_, rfl, ?_⟩
    intro hc
    apply hrows
    rwa [List.map_eq_nil_iff, setCol_rows_eq_nil] at hc
  rw [runStepsS_cons_ne (by rw [e2]; exact isEmpty_mk_false hne2 (by decide)), e2]
  obtain ⟨rs3, e3, hne3⟩ : ∃ rs3,
      salaryStep ⟨⟨renamedHeaders ++ ["Seniority"], rs2⟩,
          ⟨renamedHeaders ++ ["Seniority"], rs2⟩, true⟩
        = ⟨⟨renamedHeaders ++ ["Seniority"], rs3⟩,
           ⟨renamedHeaders ++ ["Seniority"], rs3⟩, true⟩ ∧ rs3 ≠ [] := by
    refine ⟨_, rfl, ?_⟩
    intro hc
    apply hne2
    rwa [List.map_eq_nil_iff] at hc
  rw [runStepsS_cons_ne (by rw [e3]; exact isEmpty_mk_false hne3 (by decide)), e3]
  obtain ⟨rs4, e4, hne4⟩ : ∃ rs4,
      addlCompStep ⟨⟨renamedHeaders ++ ["Seniority"], rs3⟩,
          ⟨renamedHeaders ++ ["Seniority"], rs3⟩, true⟩
        = ⟨⟨renamedHeaders ++ ["Seniority"], rs4⟩,
           ⟨renamedHeaders ++ ["Seniority"], rs4⟩, true⟩ ∧ rs4 ≠ [] := by
    refine ⟨_, rfl, ?_⟩
    intro hc
    apply hne3
    rwa [List.map_eq_nil_iff] at hc
  rw [runStepsS_cons_ne (by rw [e4]; exact isEmpty_mk_false hne4 (by decide)), e4]
  obtain ⟨w, rsC, e5⟩ : ∃ (w : Table) (rsC : List (List Cell)),
      currencyStep ⟨⟨renamedHeaders ++ ["Seniority"], rs4⟩,
          ⟨renamedHeaders ++ ["Seniority"], rs4⟩, true⟩
        = ⟨⟨renamedHeaders ++ ["Seniority"], rsC⟩, w, false⟩ :=
    ⟨_, _, rfl⟩
  have hrest : ∀ f' ∈ [timeStep, incomeStep, countryStep, jobCtxStep, genderStep,
      raceStep, eduStep, expStep, expOStep, stateStep, cityStep],
      ∀ s' : PState, s'.aliased = false →
        (f' s').caller = s'.caller ∧ (f' s').aliased = false := by
    intro f' hf'
    simp only [List.mem_cons, List.not_mem_nil, or_false] at hf'
    rcases hf' with rfl | rfl | rfl | rfl | rfl | rfl | rfl | rfl | rfl | rfl | rfl
      <;> exact stepS_caller_frozen _ _
  rw [runStepsS_cons_caller_frozen hrest (by rw [e5]), e5]

/-- Witness for **C7, amended**, at a concrete duplicate-free raw table. -/
theorem c7_caller_table_mutated_witness :
    exTable.cols = stdRawHeaders ∧ exTable.rows ≠ [] ∧ exTable.rows.Nodup ∧
    ((transformState exTable).caller.cols = renamedHeaders ++ ["Seniority"] ∧
     (transformState exTable).caller.cols ≠ exTable.cols) :=
  ⟨rfl, by decide, by decide,
   c7_caller_table_mutated exTable rfl (by decide) (by decide)⟩

/-- **C10.** A fully-null survey row is neither dropped nor left fully null:
whenever the input table carries the standard raw headers and contains the
fully-null row, the output contains the corresponding row whose Gender is
`'Prefer not to say'`, Race `'Other'`, Education `'Prefer not to say'`,
Experience and Experience_Overall `'0-1 years'`, and every other column null
(and the run is a successful, non-empty one). -/
theorem c10_null_row_transformed (t : Table) (hcols : t.cols = stdRawHeaders)
    (hmem : nullRow18 ∈ t.rows) :
    nullRowOut ∈ (transform t).rows ∧ (transform t).isEmpty = false := by
  obtain ⟨cols, rows⟩ := t
  simp only at hcols hmem
  subst hcols
  obtain ⟨rs1, hd, m1⟩ : ∃ rs1,
      dedupT ⟨stdRawHeaders, rows⟩ = ⟨stdRawHeaders, rs1⟩ ∧ nullRow18 ∈ rs1 := by
    unfold dedupT
    split
    · exact ⟨rows, rfl, hmem⟩
    · exact ⟨dropDups rows, rfl, mem_dropDups hmem⟩
  obtain ⟨rsF, hrun, mF⟩ : ∃ rsF,
      runStepsT pipelineT ⟨stdRawHeaders, rs1⟩ =
        ⟨["Timestamp", "Age", "Industry", "Job_Title", "Job_Context",
          "Annual_Salary", "Additional_Comp", "Currency", "Income_Context",
          "Country", "State", "City", "Experience_Overall", "Experience",
          "Education", "Gender", "Race", "Seniority"], rsF⟩ ∧
      ((((nullRow18.set 15 (some "Prefer not to say")).set 16 (some "Other")).set 14
          (some "Prefer not to say")).set 13 (some "0-1 years")).set 12
          (some "0-1 years") ∈ rsF := by
    rw [show pipelineT = renameT :: jobTitlesT :: salaryT :: addlCompT :: currencyT ::
      timeT :: incomeT :: countryT :: jobCtxT :: genderT :: raceT :: eduT :: expT ::
      expOT :: stateT :: cityT :: [] from rfl]
    have e1 : renameT ⟨stdRawHeaders, rs1⟩ = ⟨renamedHeaders, rs1⟩ := rfl
    rw [runStepsT_cons_ne (by
      rw [e1]; exact isEmpty_mk_false (List.ne_nil_of_mem m1) (by decide)), e1]
    obtain ⟨rs2, e2, m2⟩ : ∃ rs2,
        jobTitlesT ⟨renamedHeaders, rs1⟩ = ⟨renamedHeaders ++ ["Seniority"], rs2⟩ ∧
          List.replicate 19 (none : Cell) ∈ rs2 := by
      refine ⟨_, rfl, ?_⟩
      exact List.mem_map_of_mem _ (List.mem_map_of_mem _ m1)
    rw [runStepsT_cons_ne (by
      rw [e2]; exact isEmpty_mk_false (List.ne_nil_of_mem m2) (by decide)), e2]
    obtain ⟨rs3, e3, m3⟩ : ∃ rs3,
        salaryT ⟨renamedHeaders ++ ["Seniority"], rs2⟩
          = ⟨renamedHeaders ++ ["Seniority"], rs3⟩ ∧
          List.replicate 19 (none : Cell) ∈ rs3 := by
      refine ⟨_, rfl, ?_⟩
      exact List.mem_map_of_mem _ m2
    rw [runStepsT_cons_ne (by
      rw [e3]; exact isEmpty_mk_false (List.ne_nil_of_mem m3) (by decide)), e3]
    obtain ⟨rs4, e4, m4⟩ : ∃ rs4,
        addlCompT ⟨renamedHeaders ++ ["Seniority"], rs3⟩
          = ⟨renamedHeaders ++ ["Seniority"], rs4⟩ ∧
          List.replicate 19 (none : Cell) ∈ rs4 := by
      refine ⟨_, rfl, ?_⟩
      exact List.mem_map_of_mem _ m3
    rw [runStepsT_cons_ne (by
      rw [e4]; exact isEmpty_mk_false (List.ne_nil_of_mem m4) (by decide)), e4]
    obtain ⟨rs5, e5, m5⟩ : ∃ rs5,
        currencyT ⟨renamedHeaders ++ ["Seniority"], rs4⟩
          = ⟨["Timestamp", "Age", "Industry", "Job_Title", "Job_Context",
              "Annual_Salary", "Additional_Comp", "Currency", "Income_Context",
              "Country", "State", "City", "Experience_Overall", "Experience",
              "Education", "Gender", "Race", "Seniority"], rs5⟩ ∧
          nullRow18 ∈ rs5 := by
      refine ⟨_, rfl, ?_⟩
      exact List.mem_map_of_mem _ (List.mem_map_of_mem _ m4)
    rw [runStepsT_cons_ne (by
      rw [e5]; exact isEmpty_mk_false (List.ne_nil_of_mem m5) (by decide)), e5]
    obtain ⟨rs6, e6, m6⟩ : ∃ rs6,
        timeT ⟨["Timestamp", "Age", "Industry", "Job_Title", "Job_Context",
            "Annual_Salary", "Additional_Comp", "Currency", "Income_Context",
            "Country", "State", "City", "Experience_Overall", "Experience",
            "Education", "Gender", "Race", "Seniority"], rs5⟩
          = ⟨["Timestamp", "Age", "Industry", "Job_Title", "Job_Context",
              "Annual_Salary", "Additional_Comp", "Currency", "Income_Context",
              "Country", "State", "City", "Experience_Overall", "Experience",
              "Education", "Gender", "Race", "Seniority"], rs6⟩ ∧
          nullRow18 ∈ rs6 := by
      refine ⟨_, rfl, ?_⟩
      exact List.mem_map_of_mem _ m5
    rw [runStepsT_cons_ne (by
      rw [e6]; exact isEmpty_mk_false (List.ne_nil_of_mem m6) (by decide)), e6]
    obtain ⟨rs7, e7, m7⟩ : ∃ rs7,
        incomeT ⟨["Timestamp", "Age", "Industry", "Job_Title", "Job_Context",
            "Annual_Salary", "Additional_Comp", "Currency", "Income_Context",
            "Country", "State", "City", "Experience_Overall", "Experience",
            "Education", "Gender", "Race", "Seniority"], rs6⟩
          = ⟨["Timestamp", "Age", "Industry", "Job_Title", "Job_Context",
              "Annual_Salary", "Additional_Comp", "Currency", "Income_Context",
              "Country", "State", "City", "Experience_Overall", "Experience",
              "Education", "Gender", "Race", "Seniority"], rs7⟩ ∧
          nullRow18 ∈ rs7 := by
      refine ⟨_, rfl, ?_⟩
      exact List.mem_map_of_mem _ m6
    rw [runStepsT_cons_ne (by
      rw [e7]; exact isEmpty_mk_false (List.ne_nil_of_mem m7) (by decide)), e7]
    obtain ⟨rs8, e8, m8⟩ : ∃ rs8,
        countryT ⟨["Timestamp", "Age", "Industry", "Job_Title", "Job_Context",
            "Annual_Salary", "Additional_Comp", "Currency", "Income_Context",
            "Country", "State", "City", "Experience_Overall", "Experience",
            "Education", "Gender", "Race", "Seniority"], rs7⟩
          = ⟨["Timestamp", "Age", "Industry", "Job_Title", "Job_Context",
              "Annual_Salary", "Additional_Comp", "Currency", "Income_Context",
              "Country", "State", "City", "Experience_Overall", "Experience",
              "Education", "Gender", "Race", "Seniority"], rs8⟩ ∧
          nullRow18 ∈ rs8 := by
      refine ⟨_, rfl, ?_⟩
      exact List.mem_map_of_mem _ m7
    rw [runStepsT_cons_ne (by
      rw [e8]; exact isEmpty_mk_false (List.ne_nil_of_mem m8) (by decide)), e8]
    obtain ⟨rs9, e9, m9⟩ : ∃ rs9,
        jobCtxT ⟨["Timestamp", "Age", "Industry", "Job_Title", "Job_Context",
            "Annual_Salary", "Additional_Comp", "Currency", "Income_Context",
            "Country", "State", "City", "Experience_Overall", "Experience",
            "Education", "Gender", "Race", "Seniority"], rs8⟩
          = ⟨["Timestamp", "Age", "Industry", "Job_Title", "Job_Context",
              "Annual_Salary", "Additional_Comp", "Currency", "Income_Context",
              "Country", "State", "City", "Experience_Overall", "Experience",
              "Education", "Gender", "Race", "Seniority"], rs9⟩ ∧
          nullRow18 ∈ rs9 := by
      refine ⟨_, rfl, ?_⟩
      exact List.mem_map_of_mem _ m8
    rw [runStepsT_cons_ne (by
      rw [e9]; exact isEmpty_mk_false (List.ne_nil_of_mem m9) (by decide)), e9]
    obtain ⟨rs10, e10, m10⟩ : ∃ rs10,
        genderT ⟨["Timestamp", "Age", "Industry", "Job_Title", "Job_Context",
            "Annual_Salary", "Additional_Comp", "Currency", "Income_Context",
            "Country", "State", "City", "Experience_Overall", "Experience",
            "Education", "Gender", "Race", "Seniority"], rs9⟩
          = ⟨["Timestamp", "Age", "Industry", "Job_Title", "Job_Context",
              "Annual_Salary", "Additional_Comp", "Currency", "Income_Context",
              "Country", "State", "City", "Experience_Overall", "Experience",
              "Education", "Gender", "Race", "Seniority"], rs10⟩ ∧
          nullRow18.set 15 (some "Prefer not to say") ∈ rs10 := by
      refine ⟨_, rfl, ?_⟩
      exact List.mem_map_of_mem _ m9
    rw [runStepsT_cons_ne (by
      rw [e10]; exact isEmpty_mk_false (List.ne_nil_of_mem m10) (by decide)), e10]
    obtain ⟨rs11, e11, m11⟩ : ∃ rs11,
        raceT ⟨["Timestamp", "Age", "Industry", "Job_Title", "Job_Context",
            "Annual_Salary", "Additional_Comp", "Currency", "Income_Context",
            "Country", "State", "City", "Experience_Overall", "Experience",
            "Education", "Gender", "Race", "Seniority"], rs10⟩
          = ⟨["Timestamp", "Age", "Industry", "Job_Title", "Job_Context",
              "Annual_Salary", "Additional_Comp", "Currency", "Income_Context",
              "Country", "State", "City", "Experience_Overall", "Experience",
              "Education", "Gender", "Race", "Seniority"], rs11⟩ ∧
          (nullRow18.set 15 (some "Prefer not to say")).set 16 (some "Other") ∈ rs11 := by
      refine ⟨_, rfl, ?_⟩
      exact List.mem_map_of_mem _ m10
    rw [runStepsT_cons_ne (by
      rw [e11]; exact isEmpty_mk_false (List.ne_nil_of_mem m11) (by decide)), e11]
    obtain ⟨rs12, e12, m12⟩ : ∃ rs12,
        eduT ⟨["Timestamp", "Age", "Industry", "Job_Title", "Job_Context",
            "Annual_Salary", "Additional_Comp", "Currency", "Income_Context",
            "Country", "State", "City", "Experience_Overall", "Experience",
            "Education", "Gender", "Race", "Seniority"], rs11⟩
          = ⟨["Timestamp", "Age", "Industry", "Job_Title", "Job_Context",
              "Annual_Salary", "Additional_Comp", "Currency", "Income_Context",
              "Country", "State", "City", "Experience_Overall", "Experience",
              "Education", "Gender", "Race", "Seniority"], rs12⟩ ∧
          ((nullRow18.set 15 (some "Prefer not to say")).set 16 (some "Other")).set 14
            (some "Prefer not to say") ∈ rs12 := by
      refine ⟨_, rfl, ?_⟩
      exact List.mem_map_of_mem _ m11
    rw [runStepsT_cons_ne (by
      rw [e12]; exact isEmpty_mk_false (List.ne_nil_of_mem m12) (by decide)), e12]
    obtain ⟨rs13, e13, m13⟩ : ∃ rs13,
        expT ⟨["Timestamp", "Age", "Industry", "Job_Title", "Job_Context",
            "Annual_Salary", "Additional_Comp", "Currency", "Income_Context",
            "Country", "State", "City", "Experience_Overall", "Experience",
            "Education", "Gender", "Race", "Seniority"], rs12⟩
          = ⟨["Timestamp", "Age", "Industry", "Job_Title", "Job_Context",
              "Annual_Salary", "Additional_Comp", "Currency", "Income_Context",
              "Country", "State", "City", "Experience_Overall", "Experience",
              "Education", "Gender", "Race", "Seniority"], rs13⟩ ∧
          (((nullRow18.set 15 (some "Prefer not to say")).set 16 (some "Other")).set 14
            (some "Prefer not to say")).set 13 (some "0-1 years") ∈ rs13 := by
      refine ⟨_, rfl, ?_⟩
      exact List.mem_map_of_mem _ m12
    rw [runStepsT_cons_ne (by
      rw [e13]; exact isEmpty_mk_false (List.ne_nil_of_mem m13) (by decide)), e13]
    obtain ⟨rs14, e14, m14⟩ : ∃ rs14,
        expOT ⟨["Timestamp", "Age", "Industry", "Job_Title", "Job_Context",
            "Annual_Salary", "Additional_Comp", "Currency", "Income_Context",
            "Country", "State", "City", "Experience_Overall", "Experience",
            "Education", "Gender", "Race", "Seniority"], rs13⟩
          = ⟨["Timestamp", "Age", "Industry", "Job_Title", "Job_Context",
              "Annual_Salary", "Additional_Comp", "Currency", "Income_Context",
              "Country", "State", "City", "Experience_Overall", "Experience",
              "Education", "Gender", "Race", "Seniority"], rs14⟩ ∧
          ((((nullRow18.set 15 (some "Prefer not to say")).set 16 (some "Other")).set 14
            (some "Prefer not to say")).set 13 (some "0-1 years")).set 12
            (some "0-1 years") ∈ rs14 := by
      refine ⟨_, rfl, ?_⟩
      exact List.mem_map_of_mem _ m13
    rw [runStepsT_cons_ne (by
      rw [e14]; exact isEmpty_mk_false (List.ne_nil_of_mem m14) (by decide)), e14]
    obtain ⟨rs15, e15, m15⟩ : ∃ rs15,
        stateT ⟨["Timestamp", "Age", "Industry", "Job_Title", "Job_Context",
            "Annual_Salary", "Additional_Comp", "Currency", "Income_Context",
            "Country", "State", "City", "Experience_Overall", "Experience",
            "Education", "Gender", "Race", "Seniority"], rs14⟩
          = ⟨["Timestamp", "Age", "Industry", "Job_Title", "Job_Context",
              "Annual_Salary", "Additional_Comp", "Currency", "Income_Context",
              "Country", "State", "City", "Experience_Overall", "Experience",
              "Education", "Gender", "Race", "Seniority"], rs15⟩ ∧
          ((((nullRow18.set 15 (some "Prefer not to say")).set 16 (some "Other")).set 14
            (some "Prefer not to say")).set 13 (some "0-1 years")).set 12
            (some "0-1 years") ∈ rs15 := by
      refine ⟨_, rfl, ?_⟩
      exact List.mem_map_of_mem _ m14
    rw [runStepsT_cons_ne (by
      rw [e15]; exact isEmpty_mk_false (List.ne_nil_of_mem m15) (by decide)), e15]
    obtain ⟨rs16, e16, m16⟩ : ∃ rs16,
        cityT ⟨["Timestamp", "Age", "Industry", "Job_Title", "Job_Context",
            "Annual_Salary", "Additional_Comp", "Currency", "Income_Context",
            "Country", "State", "City", "Experience_Overall", "Experience",
            "Education", "Gender", "Race", "Seniority"], rs15⟩
          = ⟨["Timestamp", "Age", "Industry", "Job_Title", "Job_Context",
              "Annual_Salary", "Additional_Comp", "Currency", "Income_Context",
              "Country", "State", "City", "Experience_Overall", "Experience",
              "Education", "Gender", "Race", "Seniority"], rs16⟩ ∧
          ((((nullRow18.set 15 (some "Prefer not to say")).set 16 (some "Other")).set 14
            (some "Prefer not to say")).set 13 (some "0-1 years")).set 12
            (some "0-1 years") ∈ rs16 := by
      refine ⟨_, rfl, ?_⟩
      exact List.mem_map_of_mem _ m15
    rw [runStepsT_cons_ne (by
      rw [e16]; exact isEmpty_mk_false (List.ne_nil_of_mem m16) (by decide)), e16]
    exact ⟨rs16, rfl, m16⟩
  obtain ⟨rsO, eO, mO⟩ : ∃ rsO,
      projectFinal (dtypeConversion (finalCleanup
        ⟨["Timestamp", "Age", "Industry", "Job_Title", "Job_Context",
          "Annual_Salary", "Additional_Comp", "Currency", "Income_Context",
          "Country", "State", "City", "Experience_Overall", "Experience",
          "Education", "Gender", "Race", "Seniority"], rsF⟩))
        = ⟨canonicalCols, rsO⟩ ∧ nullRowOut ∈ rsO := by
    refine ⟨_, rfl, ?_⟩
    exact List.mem_map_of_mem _ (List.mem_map_of_mem _ mF)
  unfold transform
  rw [if_neg (by
    rw [isEmpty_mk_false (List.ne_nil_of_mem hmem) (by decide)]
    exact Bool.false_ne_true)]
  rw [nullDropT_eq, hd, hrun]
  rw [if_neg (by
    rw [isEmpty_mk_false (List.ne_nil_of_mem mF) (by decide)]
    exact Bool.false_ne_true)]
  rw [eO]
  exact ⟨mO, isEmpty_mk_false (List.ne_nil_of_mem mO) (by decide)⟩

/-- Witness for **C10** at a concrete one-row table whose row is fully null. -/
theorem c10_null_row_transformed_witness :
    nullTable.cols = stdRawHeaders ∧ nullRow18 ∈ nullTable.rows ∧
    (nullRowOut ∈ (transform nullTable).rows ∧ (transform nullTable).isEmpty = false) :=
  ⟨rfl, by decide, c10_null_row_transformed nullTable rfl (by decide)⟩

theorem dtypeConversion_eq (t : Table) : dtypeConversion t = t := rfl

/-- Reading a projected row at a canonical column yields the projection
function applied to that column name. -/
theorem getVal_canonical_map (g : String → Cell) (name : String)
    (h : name ∈ canonicalCols) :
    getVal canonicalCols (canonicalCols.map g) name = g name := by
  simp only [canonicalCols] at h
  fin_cases h <;> rfl

/-- When the loop's overall result is non-empty, each guarded step it passed
through had a passing guard and a non-empty core result, and the loop
continues on the core's output. -/
theorem fillStep_advance {f : Table → Table} {g : Table → Bool}
    {core : Table → Table} (hf : f = stepT g core)
    {rest : List (Table → Table)} {t : Table}
    (h2 : ¬((runStepsT (f :: rest) t).isEmpty = true)) :
    g t = true ∧ (core t).isEmpty = false ∧
      runStepsT (f :: rest) t = runStepsT rest (core t) := by
  subst hf
  rcases hg : g t with _ | _
  · exfalso
    apply h2
    have he : stepT g core t = emptyTable := by
      unfold stepT
      rw [hg]
      rfl
    rw [runStepsT_cons_empty (by rw [he]; rfl)]
    rfl
  · have he : stepT g core t = core t := by
      unfold stepT
      rw [hg]
      rfl
    rcases hce : (core t).isEmpty with _ | _
    · exact ⟨rfl, rfl, by rw [runStepsT_cons_ne (by rw [he]; exact hce), he]⟩
    · exfalso
      apply h2
      rw [runStepsT_cons_empty (by rw [he]; exact hce)]
      rfl

set_option maxHeartbeats 1000000 in
/-- **C3.** Whenever `transform` returns a non-empty table, every row of the
result holds a present value in each of Gender, Race, Education, Experience
and Experience_Overall (the respective steps fill the missing values). -/
theorem c3_demographics_never_null (df : Table) (hwf : df.WF)
    (hne : (transform df).isEmpty = false) :
    ∀ r ∈ (transform df).rows,
      ∀ name ∈ (["Gender", "Race", "Education", "Experience",
          "Experience_Overall"] : List String),
        getVal (transform df).cols r name ≠ none := by
  by_cases hE : df.isEmpty = true
  · rw [show transform df = df from by unfold transform; rw [if_pos hE]] at hne
    rw [hE] at hne
    exact absurd hne (by simp)
  have htr : transform df =
      (if (runStepsT pipelineT (nullDropT (dedupT df))).isEmpty = true
        then runStepsT pipelineT (nullDropT (dedupT df))
        else projectFinal (dtypeConversion (finalCleanup
          (runStepsT pipelineT (nullDropT (dedupT df)))))) := by
    unfold transform
    rw [if_neg hE]
  by_cases h2 : (runStepsT pipelineT (nullDropT (dedupT df))).isEmpty = true
  · rw [htr, if_pos h2] at hne
    exact absurd h2 (by rw [hne]; exact Bool.false_ne_true)
  · rw [htr, if_neg h2]
    have hEf : df.isEmpty = false := Bool.not_eq_true _ ▸ hE
    have hstartWF : (nullDropT (dedupT df)).WF := by
      rw [nullDropT_eq]
      exact WF_dedupT hwf
    have hstartNE : (nullDropT (dedupT df)).isEmpty = false := by
      rw [nullDropT_eq, dedupT_isEmpty]
      exact hEf
    have hsplit := @runStepsT_append preSteps fillSteps
      (nullDropT (dedupT df)) hstartNE
    rw [show pipelineT = preSteps ++ fillSteps from rfl, hsplit] at h2 ⊢
    by_cases hw : (runStepsT preSteps (nullDropT (dedupT df))).isEmpty = true
    · rw [if_pos hw] at h2
      exact absurd hw h2
    · rw [if_neg hw] at h2 ⊢
      have hWFw : (runStepsT preSteps (nullDropT (dedupT df))).WF :=
        runStepsT_WF (fun f hf => pipelineT_WF f (by
          rw [show pipelineT = preSteps ++ fillSteps from rfl]
          exact List.mem_append_left _ hf)) hstartWF
      set w0 := runStepsT preSteps (nullDropT (dedupT df)) with hw0
      rw [show fillSteps = genderT :: raceT :: eduT :: expT :: expOT :: stateT ::
        cityT :: [] from rfl] at h2 ⊢
      -- gender
      obtain ⟨hgd, _, hgrw⟩ := fillStep_advance
        (show genderT = stepT (colGuard "Gender") genderCore from rfl) h2
      rw [hgrw] at h2 ⊢
      have FG1 : Filled (genderCore w0) "Gender" :=
        Filled_setCol_self hWFw (by simpa [colGuard] using hgd)
          (fun r _ => genderCell_spec _)
      have WF1 : (genderCore w0).WF := WF_setCol hWFw
      set w1 := genderCore w0 with hw1
      -- race
      obtain ⟨hrd, _, hrrw⟩ := fillStep_advance
        (show raceT = stepT (colGuard "Race") raceCore from rfl) h2
      rw [hrrw] at h2 ⊢
      have FR2 : Filled (raceCore w1) "Race" :=
        Filled_setCol_self WF1 (by simpa [colGuard] using hrd)
          (fun r _ => raceCell_spec _)
      have FG2 : Filled (raceCore w1) "Gender" :=
        Filled_setCol_frame WF1 (show "Gender" ≠ "Race" by decide) FG1
      have WF2 : (raceCore w1).WF := WF_setCol WF1
      set w2 := raceCore w1 with hw2
      -- education
      obtain ⟨hed, _, herw⟩ := fillStep_advance
        (show eduT = stepT (colGuard "Education") eduCore from rfl) h2
      rw [herw] at h2 ⊢
      have FE3 : Filled (eduCore w2) "Education" :=
        Filled_setCol_self WF2 (by simpa [colGuard] using hed)
          (fun r _ => eduCell_spec _)
      have FG3 : Filled (eduCore w2) "Gender" :=
        Filled_setCol_frame WF2 (show "Gender" ≠ "Education" by decide) FG2
      have FR3 : Filled (eduCore w2) "Race" :=
        Filled_setCol_frame WF2 (show "Race" ≠ "Education" by decide) FR2
      have WF3 : (eduCore w2).WF := WF_setCol WF2
      set w3 := eduCore w2 with hw3
      -- experience
      obtain ⟨hxd, _, hxrw⟩ := fillStep_advance
        (show expT = stepT (colGuard "Experience") expCore from rfl) h2
      rw [hxrw] at h2 ⊢
      have FX4 : Filled (expCore w3) "Experience" :=
        Filled_setCol_self WF3 (by simpa [colGuard] using hxd)
          (fun r _ => expCell_spec _)
      have FG4 : Filled (expCore w3) "Gender" :=
        Filled_setCol_frame WF3 (show "Gender" ≠ "Experience" by decide) FG3
      have FR4 : Filled (expCore w3) "Race" :=
        Filled_setCol_frame WF3 (show "Race" ≠ "Experience" by decide) FR3
      have FE4 : Filled (expCore w3) "Education" :=
        Filled_setCol_frame WF3 (show "Education" ≠ "Experience" by decide) FE3
      have WF4 : (expCore w3).WF := WF_setCol WF3
      set w4 := expCore w3 with hw4
      -- overall experience
      obtain ⟨hod, _, horw⟩ := fillStep_advance
        (show expOT = stepT (colGuard "Experience_Overall") expOCore from rfl) h2
      rw [horw] at h2 ⊢
      have FO5 : Filled (expOCore w4) "Experience_Overall" :=
        Filled_setCol_self WF4 (by simpa [colGuard] using hod)
          (fun r _ => expOCell_spec _)
      have FG5 : Filled (expOCore w4) "Gender" :=
        Filled_setCol_frame WF4 (show "Gender" ≠ "Experience_Overall" by decide) FG4
      have FR5 : Filled (expOCore w4) "Race" :=
        Filled_setCol_frame WF4 (show "Race" ≠ "Experience_Overall" by decide) FR4
      have FE5 : Filled (expOCore w4) "Education" :=
        Filled_setCol_frame WF4 (show "Education" ≠ "Experience_Overall" by decide) FE4
      have FX5 : Filled (expOCore w4) "Experience" :=
        Filled_setCol_frame WF4 (show "Experience" ≠ "Experience_Overall" by decide) FX4
      have WF5 : (expOCore w4).WF := WF_setCol WF4
      set w5 := expOCore w4 with hw5
      -- state
      obtain ⟨hsd, _, hsrw⟩ := fillStep_advance
        (show stateT = stepT (colGuard "State") stateCore from rfl) h2
      rw [hsrw] at h2 ⊢
      have FG6 : Filled (stateCore w5) "Gender" :=
        Filled_setCol_frame WF5 (show "Gender" ≠ "State" by decide) FG5
      have FR6 : Filled (stateCore w5) "Race" :=
        Filled_setCol_frame WF5 (show "Race" ≠ "State" by decide) FR5
      have FE6 : Filled (stateCore w5) "Education" :=
        Filled_setCol_frame WF5 (show "Education" ≠ "State" by decide) FE5
      have FX6 : Filled (stateCore w5) "Experience" :=
        Filled_setCol_frame WF5 (show "Experience" ≠ "State" by decide) FX5
      have FO6 : Filled (stateCore w5) "Experience_Overall" :=
        Filled_setCol_frame WF5 (show "Experience_Overall" ≠ "State" by decide) FO5
      have WF6 : (stateCore w5).WF := WF_setCol WF5
      set w6 := stateCore w5 with hw6
      -- city
      obtain ⟨hcd, _, hcrw⟩ := fillStep_advance
        (show cityT = stepT (colGuard "City") cityCore from rfl) h2
      rw [hcrw] at h2 ⊢
      have FG7 : Filled (cityCore w6) "Gender" :=
        Filled_setCol_frame WF6 (show "Gender" ≠ "City" by decide) FG6
      have FR7 : Filled (cityCore w6) "Race" :=
        Filled_setCol_frame WF6 (show "Race" ≠ "City" by decide) FR6
      have FE7 : Filled (cityCore w6) "Education" :=
        Filled_setCol_frame WF6 (show "Education" ≠ "City" by decide) FE6
      have FX7 : Filled (cityCore w6) "Experience" :=
        Filled_setCol_frame WF6 (show "Experience" ≠ "City" by decide) FX6
      have FO7 : Filled (cityCore w6) "Experience_Overall" :=
        Filled_setCol_frame WF6 (show "Experience_Overall" ≠ "City" by decide) FO6
      set w7 := cityCore w6 with hw7
      -- the final cleanup preserves the filled columns
      have FGc := Filled_finalCleanup FG7
      have FRc := Filled_finalCleanup FR7
      have FEc := Filled_finalCleanup FE7
      have FXc := Filled_finalCleanup FX7
      have FOc := Filled_finalCleanup FO7
      rw [runStepsT_nil]
      unfold projectFinal
      split
      · intro r hr name hname
        rcases List.mem_map.mp hr with ⟨rr, hrr, rfl⟩
        fin_cases hname
        · obtain ⟨s, hs, _⟩ := FGc.2 rr hrr
          show getVal canonicalCols (canonicalCols.map (fun c =>
            getVal (dtypeConversion (finalCleanup w7)).cols rr c)) "Gender" ≠ none
          simp only [getVal_canonical_map _ "Gender"
            (by decide : "Gender" ∈ canonicalCols), dtypeConversion_eq]
          rw [hs]
          exact Option.some_ne_none s
        · obtain ⟨s, hs, _⟩ := FRc.2 rr hrr
          show getVal canonicalCols (canonicalCols.map (fun c =>
            getVal (dtypeConversion (finalCleanup w7)).cols rr c)) "Race" ≠ none
          simp only [getVal_canonical_map _ "Race"
            (by decide : "Race" ∈ canonicalCols), dtypeConversion_eq]
          rw [hs]
          exact Option.some_ne_none s
        · obtain ⟨s, hs, _⟩ := FEc.2 rr hrr
          show getVal canonicalCols (canonicalCols.map (fun c =>
            getVal (dtypeConversion (finalCleanup w7)).cols rr c)) "Education" ≠ none
          simp only [getVal_canonical_map _ "Education"
            (by decide : "Education" ∈ canonicalCols), dtypeConversion_eq]
          rw [hs]
          exact Option.some_ne_none s
        · obtain ⟨s, hs, _⟩ := FXc.2 rr hrr
          show getVal canonicalCols (canonicalCols.map (fun c =>
            getVal (dtypeConversion (finalCleanup w7)).cols rr c)) "Experience" ≠ none
          simp only [getVal_canonical_map _ "Experience"
            (by decide : "Experience" ∈ canonicalCols), dtypeConversion_eq]
          rw [hs]
          exact Option.some_ne_none s
        · obtain ⟨s, hs, _⟩ := FOc.2 rr hrr
          show getVal canonicalCols (canonicalCols.map (fun c =>
            getVal (dtypeConversion (finalCleanup w7)).cols rr c)) "Experience_Overall" ≠ none
          simp only [getVal_canonical_map _ "Experience_Overall"
            (by decide : "Experience_Overall" ∈ canonicalCols), dtypeConversion_eq]
          rw [hs]
          exact Option.some_ne_none s
      · intro r hr
        simp [emptyTable] at hr

/-- Witness for **C3** at a concrete table with a non-empty output. -/
theorem c3_demographics_never_null_witness :
    nullTable.WF ∧ (transform nullTable).isEmpty = false ∧
    (∀ r ∈ (transform nullTable).rows,
      ∀ name ∈ (["Gender", "Race", "Education", "Experience",
          "Experience_Overall"] : List String),
        getVal (transform nullTable).cols r name ≠ none) :=
  ⟨by decide, by decide, c3_demographics_never_null nullTable (by decide) (by decide)⟩

end SalarySurvey
